import Mathlib

/-
  Verification of the two-layer declarative execution engine
  (skill_controller.py / workflow_controller.py).

  Shallow embedding conventions:
  * Python dicts are ordered association lists `List (String × _)`;
    `dictInsert` mirrors CPython assignment (update in place, else append).
  * Subprocess spawns are recorded as `Spawn` events; their outcomes come
    from an oracle `Nat → ProcResult` consumed in spawn order.
  * Wall-clock durations and timestamps are not modelled (durations are 0,
    timestamps omitted); they carry no logic in the source.
  * Filesystem paths are lists of components of the already-resolved
    absolute path; `resolve` mirrors `Path(p).resolve()` (lexical
    normalisation against the process cwd) and `relative_to` succeeds
    exactly when the base components are a prefix.
-/

namespace AOrch

/-- JSON-like input values (§9 of the spec: string, integer, boolean,
nested mapping, sequence). -/
inductive Value where
  | str (s : String)
  | num (n : Int)
  | bool (b : Bool)
  | dict (entries : List (String × Value))
  | list (items : List Value)

abbrev Inputs := List (String × Value)

mutual

/-- Structural equality on values, mirroring Python `==` on parsed JSON
(the bool/int crossover of Python is not modelled; specs do not rely on it). -/
def valueBeq : Value → Value → Bool
  | .str a, .str b => a == b
  | .num a, .num b => a == b
  | .bool a, .bool b => a == b
  | .dict a, .dict b => entriesBeq a b
  | .list a, .list b => itemsBeq a b
  | _, _ => false

def entriesBeq : List (String × Value) → List (String × Value) → Bool
  | [], [] => true
  | (k, v) :: r, (k2, v2) :: r2 => k == k2 && valueBeq v v2 && entriesBeq r r2
  | _, _ => false

def itemsBeq : List Value → List Value → Bool
  | [], [] => true
  | v :: r, v2 :: r2 => valueBeq v v2 && itemsBeq r r2
  | _, _ => false

end

instance : BEq Value := ⟨valueBeq⟩

/-- Lookup, `d[k]`-style, on an ordered association list. -/
def lookupA {A : Type} : List (String × A) → String → Option A
  | [], _ => none
  | (k0, v0) :: rest, k => if k0 == k then some v0 else lookupA rest k

/-- CPython dict assignment `d[k] = v`: replaces in place keeping the
original position, otherwise appends. -/
def dictInsert {A : Type} : List (String × A) → String → A → List (String × A)
  | [], k, v => [(k, v)]
  | (k0, v0) :: rest, k, v =>
    if k0 == k then (k, v) :: rest else (k0, v0) :: dictInsert rest k v

/-- Python `{**a, **b}`. -/
def mergeInputs {A : Type} (a b : List (String × A)) : List (String × A) :=
  b.foldl (fun acc kv => dictInsert acc kv.1 kv.2) a

/-- Substring test, mirroring Python `needle in hay`. -/
def subSearch (n : List Char) : List Char → Bool
  | [] => n.isEmpty
  | c :: rest => n.isPrefixOf (c :: rest) || subSearch n rest

def strContains (hay needle : String) : Bool :=
  subSearch needle.data hay.data

/-- Lowercasing, `str.lower()` (ASCII, as the sensitive tokens are ASCII). -/
def lowerStr (s : String) : String :=
  String.mk (s.data.map Char.toLower)

/-- Python slicing `s[:n]` by characters. -/
def takeChars (n : Nat) (s : String) : String :=
  String.mk (s.data.take n)

/-- SENSITIVE_KEYS from `SkillController._sanitize_inputs_for_log`. -/
def sensitiveTokens : List String :=
  ["password", "secret", "token", "api_key", "apikey", "api-key",
   "private_key", "privatekey", "auth", "credential", "credentials",
   "access_key", "secret_key", "bearer", "jwt", "session"]

def isSensitiveKey (k : String) : Bool :=
  sensitiveTokens.any (fun t => strContains (lowerStr k) t)

/-- Embedding of `SkillController._sanitize_inputs_for_log`: sensitive keys are
redacted first; otherwise dict values are recursed into; other values
are kept intact. -/
def sanitizeEntries : List (String × Value) → List (String × Value)
  | [] => []
  | (k, v) :: rest =>
    if isSensitiveKey k then (k, .str "[REDACTED]") :: sanitizeEntries rest
    else
      match v with
      | .dict es => (k, .dict (sanitizeEntries es)) :: sanitizeEntries rest
      | _ => (k, v) :: sanitizeEntries rest

/-- Decidable statement of P4: every sensitive-named key (recursively
through nested dicts) holds the literal `[REDACTED]`. -/
def cleanEntries : List (String × Value) → Bool
  | [] => true
  | (k, v) :: rest =>
    (if isSensitiveKey k then valueBeq v (.str "[REDACTED]")
     else
       match v with
       | .dict es => cleanEntries es
       | _ => true)
    && cleanEntries rest

/-! ## Paths (`Path.resolve` / `relative_to`) -/

/-- Lexical normalisation of path components against an accumulator:
`..` pops, `.` and empty components vanish (what `Path.resolve()` does
for non-existent paths; symlinks are not modelled). -/
def normalizeComps (acc : List String) : List String → List String
  | [] => acc
  | c :: rest =>
    if c = "" || c = "." then normalizeComps acc rest
    else if c = ".." then normalizeComps acc.dropLast rest
    else normalizeComps (acc ++ [c]) rest

/-- Splitting on a separator character (structural analogue of
`str.split("/")`, same empty-segment behaviour). -/
def splitCharsOn (sep : Char) : List Char → List Char → List String
  | [], acc => [String.mk acc.reverse]
  | c :: rest, acc =>
    if c = sep then String.mk acc.reverse :: splitCharsOn sep rest []
    else splitCharsOn sep rest (c :: acc)

def splitSlash (p : String) : List String :=
  splitCharsOn '/' p.data []

def startsSlash (p : String) : Bool :=
  match p.data with
  | c :: _ => c = '/'
  | [] => false

/-- Resolution, `Path(p).resolve()`, with the given process working directory:
absolute strings restart from the root, relative strings resolve
against the cwd components. -/
def resolve (cwd : List String) (p : String) : List String :=
  if startsSlash p then normalizeComps [] (splitSlash p)
  else normalizeComps cwd (splitSlash p)

/-- Containment: `resolved.relative_to(base)` succeeds exactly when the base
components are a prefix of the resolved components. -/
def withinBase (base p : List String) : Bool :=
  base.isPrefixOf p

def joinWith (sep : String) : List String → String
  | [] => ""
  | [s] => s
  | s :: rest => s ++ sep ++ joinWith sep rest

def renderPath (p : List String) : String :=
  "/" ++ joinWith "/" p

/-! ## Template interpolation (`str.format(**inputs)`) -/

def lbraceC : Char := Char.ofNat 123
def rbraceC : Char := Char.ofNat 125
def squote : String := String.singleton (Char.ofNat 39)

/-- Python single-quoted rendering, as in `str(KeyError(k))`. -/
def quoteKey (k : String) : String := squote ++ k ++ squote

/-- Python `str(value)` as used when a value is substituted into a
template (dict/list reprs are abstracted). -/
def valueToString : Value → String
  | .str s => s
  | .num n => toString n
  | .bool b => if b then "True" else "False"
  | .dict _ => "<dict>"
  | .list _ => "<list>"

/-- One-pass scanner for `{name}` placeholders. The second argument
holds the reversed characters of a placeholder being read, when inside
braces. A missing key is returned as `.error key` (Python `KeyError`).
Brace escaping (`\x7b\x7b`) and format specs are not modelled; no spec in
the claims uses them. -/
def interpScan (m : Inputs) : List Char → Option (List Char) → Except String (List Char)
  | [], none => .ok []
  | [], some _ => .ok []
  | c :: rest, none =>
    if c = lbraceC then interpScan m rest (some [])
    else
      match interpScan m rest none with
      | .ok t => .ok (c :: t)
      | .error e => .error e
  | c :: rest, some acc =>
    if c = rbraceC then
      match lookupA m (String.mk acc.reverse) with
      | none => .error (String.mk acc.reverse)
      | some v =>
        match interpScan m rest none with
        | .ok t => .ok ((valueToString v).data ++ t)
        | .error e => .error e
    else interpScan m rest (some (c :: acc))

def interpolate (tmpl : String) (m : Inputs) : Except String String :=
  match interpScan m tmpl.data none with
  | .ok cs => .ok (String.mk cs)
  | .error e => .error e

/-- Value of a successful interpolation (used only under an
`isOk` hypothesis). -/
def interpOr (tmpl : String) (m : Inputs) : String :=
  match interpolate tmpl m with
  | .ok s => s
  | .error _ => ""

/-! ## Skill data model -/

/-- An input declaration `{type, required?, default?, enum?}`. -/
structure InputSpec where
  required : Bool
  default : Option Value
  enum : Option (List Value)

/-- A step record; `working_dir` carries the parse-time default `"."`,
`timeout` the default 300 and `retry` the default 0 (`step.get(...)`). -/
structure Step where
  id : String
  type : String
  cmd : String
  working_dir : String
  env : List (String × String)
  timeout : Nat
  retry : Nat
  checkpoint_message : Option String
  description : Option String
  mcp_server : Option String
  mcp_tool : Option String

structure Prereq where
  check : String
  args : List String
  error_message : Option String

/-- A verification probe; `ctype` carries the default `"bash"` and
`expect_exit` the default 0. -/
structure Check where
  ctype : String
  cmd : String
  path : String
  expect_exit : Int
  error_message : Option String

structure SkillSpec where
  name : String
  version : String
  autonomy : String
  inputs : List (String × InputSpec)
  pre_requisites : List Prereq
  context7_required : List String
  steps : List Step
  verification : List Check
  rollback : List Step

/-! ## Engine world, oracles and events -/

/-- Read-only queries the probes make against the host. -/
structure World where
  whichOk : String → Bool
  pathExists : String → Bool
  isFile : String → Bool
  isDir : String → Bool
  envHas : String → Bool
  jsonValidAt : String → Bool

/-- Outcome of one spawned subprocess (`subprocess.run`); `timedOut`
models a raised `TimeoutExpired`. -/
structure ProcResult where
  exitCode : Int
  stdout : String
  stderr : String
  timedOut : Bool

/-- A value returned (or raised) by the host agent callback. -/
inductive AgentResp where
  | asStep (stepId : String) (success : Bool) (output : String)
      (error : Option String) (retries : Nat)
  | value (truthy : Bool) (toStr : String)
  | noneV
  | raise (msg : String)

inductive SpawnPhase where
  | stepRun
  | verifyRun
  | rollbackRun
deriving BEq

/-- One subprocess launch: the (interpolated) command text, the working
directory handed to the OS already resolved against the engine cwd
(`none` = inherit the engine's cwd), and the timeout if one was passed. -/
structure Spawn where
  cmd : String
  cwd : Option (List String)
  timeoutSec : Option Nat
  sphase : SpawnPhase

/-- One line of the persisted log's `steps` array. -/
structure LogStep where
  id : String
  type : String
  status : String
  duration_ms : Nat
  output : String
  error : Option String
  retries_used : Nat

/-- The persisted execution-log JSON object (§6). -/
structure ExecLog where
  skill : String
  version : String
  autonomy : String
  inputs : List (String × Value)
  dry_run : Bool
  steps : List LogStep
  verification_passed : Bool
  verification_failed : Option Check
  error : Option String
  success : Bool
  total_duration_ms : Nat
  steps_completed : List String
  steps_failed : List String

inductive Event where
  | spawned (s : Spawn)
  | cbCall (verb : String)
  | logWrite (lg : ExecLog)

structure StepResultM where
  step_id : String
  success : Bool
  output : String
  duration_ms : Nat
  error : Option String
  retries_used : Nat

structure SkillResultM where
  success : Bool
  skill_name : String
  version : String
  steps_completed : List String
  steps_failed : List String
  total_duration_ms : Nat
  log_file : Option String
  error : Option String

/-- Spawn/callback counters threaded through a skill execution. -/
structure Eng where
  spawnN : Nat
  cbN : Nat

def eng0 : Eng := { spawnN := 0, cbN := 0 }

/-- Engine configuration: the configured base path and the process
working directory, both resolved. -/
structure Ctx where
  basePath : List String
  cwd : List String

/-! ## Step runner (`SkillController`) -/

/-- Embedding of `SkillController.validate_inputs`: first required-missing or enum
violation, in declaration order. -/
def renderValues (es : List Value) : String :=
  "[" ++ joinWith ", " (es.map valueToString) ++ "]"

def validateInputs : List (String × InputSpec) → Inputs → Option String
  | [], _ => none
  | (nm, spec) :: rest, inputs =>
    if spec.required && (lookupA inputs nm).isNone then
      some ("Missing required input: " ++ nm)
    else
      match lookupA inputs nm, spec.enum with
      | some v, some es =>
        if es.any (fun e => valueBeq v e) then validateInputs rest inputs
        else some ("Invalid value for " ++ nm ++ ": must be one of " ++ renderValues es)
      | _, _ => validateInputs rest inputs

/-- The defaults loop of `execute_skill` (and `execute_workflow`): each
absent optional input with a default is written into the caller's
dict. -/
def applyDefaults (specs : List (String × InputSpec)) (inputs : Inputs) : Inputs :=
  specs.foldl
    (fun acc p =>
      if (lookupA acc p.1).isNone then
        match p.2.default with
        | some d => dictInsert acc p.1 d
        | none => acc
      else acc)
    inputs

def failStep (stepId msg : String) : StepResultM :=
  { step_id := stepId, success := false, output := "", duration_ms := 0,
    error := some msg, retries_used := 0 }

/-- The `_validate_path_safety` ValueError message. -/
def securityMsg (context pathStr : String) (ctx : Ctx) : String :=
  "SECURITY: " ++ context ++ " " ++ quoteKey pathStr
    ++ " attempts to escape workspace. Must be within: " ++ renderPath ctx.basePath

def timeoutMsg (t : Nat) : String :=
  "Command timed out after " ++ toString t ++ "s"

/-- One `subprocess.run` for a step, consuming the next oracle entry. -/
def runSpawn (oracle : Nat → ProcResult) (stepId cmd : String)
    (cwd : Option (List String)) (tmo : Nat) (outElse : String → String)
    (eng : Eng) : StepResultM × List Event × Eng :=
  let pr := oracle eng.spawnN
  let ev := Event.spawned { cmd := cmd, cwd := cwd, timeoutSec := some tmo, sphase := .stepRun }
  let eng2 : Eng := { eng with spawnN := eng.spawnN + 1 }
  (if pr.timedOut then failStep stepId (timeoutMsg tmo)
   else
     { step_id := stepId, success := pr.exitCode == 0, output := outElse pr.stdout,
       duration_ms := 0,
       error := if pr.exitCode != 0 then some pr.stderr else none,
       retries_used := 0 },
   [ev], eng2)

/-- Embedding of `SkillController._execute_step`, the closed dispatch on the step
type.  Callback exceptions surface through the outer handler as step
failures carrying the message (`AgentResp.raise`). -/
def execStep (ctx : Ctx) (oracle : Nat → ProcResult) (cb : Option (Nat → AgentResp))
    (step : Step) (inputs : Inputs) (eng : Eng) : StepResultM × List Event × Eng :=
  if step.type == "bash" then
    match interpolate step.cmd inputs with
    | .error k => (failStep step.id ("Missing input for command: " ++ quoteKey k), [], eng)
    | .ok cmd =>
      if step.working_dir == "." then
        runSpawn oracle step.id cmd none step.timeout (fun s => s) eng
      else
        match interpolate step.working_dir inputs with
        | .error k => (failStep step.id (quoteKey k), [], eng)
        | .ok wdS =>
          let r := resolve ctx.cwd wdS
          if withinBase ctx.basePath r then
            runSpawn oracle step.id cmd (some r) step.timeout (fun s => s) eng
          else (failStep step.id (securityMsg "working_dir" wdS ctx), [], eng)
  else if step.type == "python" then
    match interpolate step.cmd inputs with
    | .error k => (failStep step.id ("Missing input for code: " ++ quoteKey k), [], eng)
    | .ok code =>
      let cwd := if step.working_dir == "." then none
                 else some (resolve ctx.cwd step.working_dir)
      runSpawn oracle step.id code cwd step.timeout
        (fun s => if s == "" then "OK" else s) eng
  else if step.type == "agent" then
    match cb with
    | none => (failStep step.id "No agent_callback provided for agent step", [], eng)
    | some f =>
      let ev := Event.cbCall "execute_step"
      let eng2 : Eng := { eng with cbN := eng.cbN + 1 }
      match f eng.cbN with
      | .asStep sid ok out err ru =>
        ({ step_id := sid, success := ok, output := out, duration_ms := 0,
           error := err, retries_used := ru }, [ev], eng2)
      | .value _ s =>
        ({ step_id := step.id, success := true,
           output := if s == "" then "OK" else s,
           duration_ms := 0, error := none, retries_used := 0 }, [ev], eng2)
      | .noneV =>
        ({ step_id := step.id, success := true, output := "OK",
           duration_ms := 0, error := none, retries_used := 0 }, [ev], eng2)
      | .raise m => (failStep step.id m, [ev], eng2)
  else if step.type == "checkpoint" then
    match cb with
    | none =>
      ({ step_id := step.id, success := true, output := "Auto-passed (no callback)",
         duration_ms := 0, error := none, retries_used := 0 }, [], eng)
    | some f =>
      let ev := Event.cbCall "checkpoint"
      let eng2 : Eng := { eng with cbN := eng.cbN + 1 }
      match f eng.cbN with
      | .asStep sid ok out err ru =>
        ({ step_id := sid, success := ok, output := out, duration_ms := 0,
           error := err, retries_used := ru }, [ev], eng2)
      | .value t _ =>
        ({ step_id := step.id, success := t, output := "Checkpoint passed",
           duration_ms := 0, error := none, retries_used := 0 }, [ev], eng2)
      | .noneV =>
        ({ step_id := step.id, success := true, output := "Checkpoint passed",
           duration_ms := 0, error := none, retries_used := 0 }, [ev], eng2)
      | .raise m => (failStep step.id m, [ev], eng2)
  else if step.type == "mcp" then
    match cb with
    | none => (failStep step.id "No agent_callback provided for MCP step", [], eng)
    | some f =>
      let ev := Event.cbCall "mcp_call"
      let eng2 : Eng := { eng with cbN := eng.cbN + 1 }
      match f eng.cbN with
      | .raise m => (failStep step.id m, [ev], eng2)
      | .value t s =>
        ({ step_id := step.id, success := true,
           output := if t then s else "OK",
           duration_ms := 0, error := none, retries_used := 0 }, [ev], eng2)
      | _ =>
        ({ step_id := step.id, success := true, output := "OK",
           duration_ms := 0, error := none, retries_used := 0 }, [ev], eng2)
  else (failStep step.id ("Unknown step type: " ++ step.type), [], eng)

/-- The retry loop of `execute_skill` step handling: re-invoke up to
`retry` times; the first success gets `retries_used := attempt + 1`;
otherwise the last failure is kept. -/
def retryLoop (ctx : Ctx) (oracle : Nat → ProcResult) (cb : Option (Nat → AgentResp))
    (step : Step) (inputs : Inputs) :
    Nat → Nat → StepResultM → Eng → StepResultM × List Event × Eng
  | 0, _, lastFail, eng => (lastFail, [], eng)
  | n + 1, attemptIdx, _lastFail, eng =>
    let (r, evs, eng2) := execStep ctx oracle cb step inputs eng
    if r.success then ({ r with retries_used := attemptIdx + 1 }, evs, eng2)
    else
      let (r2, evs2, eng3) := retryLoop ctx oracle cb step inputs n (attemptIdx + 1) r eng2
      (r2, evs ++ evs2, eng3)

/-- The per-step log entry appended right after the FIRST attempt
(`execution_log["steps"].append(...)` in `execute_skill`). -/
def mkLogStep (step : Step) (r : StepResultM) : LogStep :=
  { id := step.id, type := step.type,
    status := if r.success then "success" else "failed",
    duration_ms := r.duration_ms,
    output := if r.output == "" then "" else takeChars 1000 r.output,
    error := r.error, retries_used := r.retries_used }

/-- The rollback entries `_rollback` selects: id completed or literal
`cleanup`, in declaration order. -/
def selectedRollback (rb : List Step) (completed : List String) : List Step :=
  rb.filter (fun r => completed.contains r.id || r.id == "cleanup")

/-- Embedding of `SkillController._rollback`: each selected entry is interpolated
and spawned with a fixed 60 s timeout; interpolation errors are caught
and skip the entry; subprocess outcomes are ignored entirely. -/
def rollbackSpawns (rb : List Step) (completed : List String) (inputs : Inputs) : List Spawn :=
  rb.filterMap (fun r =>
    if completed.contains r.id || r.id == "cleanup" then
      match interpolate r.cmd inputs with
      | .ok c => some { cmd := c, cwd := none, timeoutSec := some 60, sphase := .rollbackRun }
      | .error _ => none
    else none)

inductive StepsExit where
  | failedAt (completed : List String) (failedId : String)
      (finalErr : Option String) (logs : List LogStep)
  | done (completed : List String) (logs : List LogStep)

structure StepsRes where
  exit : StepsExit
  evs : List Event
  eng : Eng

/-- The sequential step loop of `execute_skill` (ENFORCEMENT 4): log
the first attempt, retry on failure, roll back and stop on
unrecoverable failure. -/
def stepsLoop (ctx : Ctx) (oracle : Nat → ProcResult) (cb : Option (Nat → AgentResp))
    (rb : List Step) (steps : List Step) (inputs : Inputs)
    (completed : List String) (logs : List LogStep) (eng : Eng) : StepsRes :=
  match steps with
  | [] => { exit := .done completed logs, evs := [], eng := eng }
  | step :: rest =>
    let (r1, evs1, eng1) := execStep ctx oracle cb step inputs eng
    let logs2 := logs ++ [mkLogStep step r1]
    if r1.success then
      let res := stepsLoop ctx oracle cb rb rest inputs (completed ++ [step.id]) logs2 eng1
      { res with evs := evs1 ++ res.evs }
    else
      let (rF, evsR, eng2) := retryLoop ctx oracle cb step inputs step.retry 0 r1 eng1
      if rF.success then
        let res := stepsLoop ctx oracle cb rb rest inputs (completed ++ [step.id]) logs2 eng2
        { res with evs := evs1 ++ evsR ++ res.evs }
      else
        let rbEvs := if rb.isEmpty then []
                     else (rollbackSpawns rb completed inputs).map Event.spawned
        { exit := .failedAt completed step.id rF.error logs2,
          evs := evs1 ++ evsR ++ rbEvs, eng := eng2 }

/-- Embedding of `SkillController._check_prereq`. Probes only query the world, no
subprocess is spawned. `args` is assumed non-empty where `args[0]` is
read (an empty `args` would raise in the source). -/
def checkPrereq (world : World) (p : Prereq) : Bool × String :=
  if p.check == "command_exists" then
    (world.whichOk (p.args.headD ""), "Command exists")
  else if p.check == "file_exists" then
    (world.pathExists (p.args.headD "") && world.isFile (p.args.headD ""), "File exists")
  else if p.check == "dir_exists" then
    (world.pathExists (p.args.headD "") && world.isDir (p.args.headD ""), "Directory exists")
  else if p.check == "env_var_set" then
    (world.envHas (p.args.headD ""), "Env var is set")
  else (false, "Unknown check type: " ++ p.check)

def renderPrereq (p : Prereq) : String :=
  p.check ++ " " ++ joinWith " " p.args

inductive PrereqExit where
  | ok
  | failedP (errMsg : String)

/-- The prereq loop of `execute_skill` (ENFORCEMENT 2): first failure
aborts with `error_message` or a synthesized message. -/
def prereqLoop (world : World) : List Prereq → PrereqExit
  | [] => .ok
  | p :: rest =>
    if (checkPrereq world p).1 then prereqLoop world rest
    else .failedP (p.error_message.getD ("Pre-requisite failed: " ++ renderPrereq p))

inductive VerifyExit where
  | passedV
  | failedV (errMsg : String) (check : Check)
  | raisedV (msg : String)

structure VerifyRes where
  exit : VerifyExit
  evs : List Event
  eng : Eng

/-- One `_verify` probe.  `bash` catches its own interpolation KeyError
and spawns without a timeout; the path-based probes let a KeyError
escape to the outer handler (`.error`). -/
def verifyCheck (world : World) (oracle : Nat → ProcResult) (check : Check)
    (inputs : Inputs) (eng : Eng) : Except String (Bool × String) × List Event × Eng :=
  if check.ctype == "bash" then
    match interpolate check.cmd inputs with
    | .error k => (.ok (false, "Missing input for verification: " ++ quoteKey k), [], eng)
    | .ok cmd =>
      let pr := oracle eng.spawnN
      let ev := Event.spawned { cmd := cmd, cwd := none, timeoutSec := none, sphase := .verifyRun }
      let eng2 : Eng := { eng with spawnN := eng.spawnN + 1 }
      (.ok (pr.exitCode == check.expect_exit, "Exit code: " ++ toString pr.exitCode), [ev], eng2)
  else if check.ctype == "file_exists" then
    match interpolate check.path inputs with
    | .error k => (.error (quoteKey k), [], eng)
    | .ok p => (.ok (world.pathExists p, "File exists: " ++ p), [], eng)
  else if check.ctype == "dir_exists" then
    match interpolate check.path inputs with
    | .error k => (.error (quoteKey k), [], eng)
    | .ok p => (.ok (world.isDir p, "Directory exists: " ++ p), [], eng)
  else if check.ctype == "json_valid" then
    match interpolate check.path inputs with
    | .error k => (.error (quoteKey k), [], eng)
    | .ok p => (.ok (world.jsonValidAt p, "JSON check: " ++ p), [], eng)
  else (.ok (false, "Unknown verification type: " ++ check.ctype), [], eng)

/-- The verification loop of `execute_skill` (ENFORCEMENT 5). -/
def verifyLoop (world : World) (oracle : Nat → ProcResult) :
    List Check → Inputs → Eng → VerifyRes
  | [], _, eng => { exit := .passedV, evs := [], eng := eng }
  | check :: rest, inputs, eng =>
    match verifyCheck world oracle check inputs eng with
    | (.error m, evs, eng2) => { exit := .raisedV m, evs := evs, eng := eng2 }
    | (.ok (passed, msg), evs, eng2) =>
      if passed then
        let res := verifyLoop world oracle rest inputs eng2
        { res with evs := evs ++ res.evs }
      else
        { exit := .failedV (check.error_message.getD ("Verification failed: " ++ msg)) check,
          evs := evs, eng := eng2 }

structure SkillExec where
  result : SkillResultM
  finalInputs : Inputs
  log : Option ExecLog
  events : List Event

/-- Log file path, `<skill-name>_<timestamp>.json` with the timestamp
abstracted. -/
def logPath (skill : SkillSpec) : String := skill.name ++ "_log.json"

/-- Embedding of `SkillController._finalize_result`: stamps the log with the
outcome, persists it, and returns the `SkillResult` referencing it. -/
def finalizeExec (skill : SkillSpec) (finalInputs : Inputs) (lg : ExecLog)
    (completed failed : List String) (ok : Bool) (err : Option String)
    (priorEvents : List Event) : SkillExec :=
  let lg2 := { lg with
    success := ok
    total_duration_ms := 0
    steps_completed := completed
    steps_failed := failed }
  { result := { success := ok, skill_name := skill.name, version := skill.version,
                steps_completed := completed, steps_failed := failed,
                total_duration_ms := 0, log_file := some (logPath skill), error := err },
    finalInputs := finalInputs, log := some lg2,
    events := priorEvents ++ [.logWrite lg2] }

/-- The documentation-preload block (ENFORCEMENT 3): when libraries are
required, a callback is present and this is not a dry run, the callback
is invoked once (its return ignored, its exceptions caught). -/
def contextPreload (libs : List String) (cb : Option (Nat → AgentResp))
    (dryRun : Bool) : List Event × Eng :=
  if !libs.isEmpty && cb.isSome && !dryRun then
    ([.cbCall "use_context7"], { eng0 with cbN := eng0.cbN + 1 })
  else ([], eng0)

/-- Body of `execute_skill` after the registry lookup: validation,
defaults, prereqs, context7 preload, dry-run short-circuit, step loop,
verification, finalisation. -/
def executeSkillSpec (ctx : Ctx) (world : World) (oracle : Nat → ProcResult)
    (cb : Option (Nat → AgentResp)) (skill : SkillSpec) (inputs0 : Inputs)
    (dryRun : Bool) : SkillExec :=
  match validateInputs skill.inputs inputs0 with
  | some err =>
    { result := { success := false, skill_name := skill.name, version := skill.version,
                  steps_completed := [], steps_failed := [], total_duration_ms := 0,
                  log_file := none, error := some err },
      finalInputs := inputs0, log := none, events := [] }
  | none =>
    let inputs := applyDefaults skill.inputs inputs0
    let baseLog : ExecLog :=
      { skill := skill.name, version := skill.version, autonomy := skill.autonomy,
        inputs := sanitizeEntries inputs, dry_run := dryRun, steps := [],
        verification_passed := false, verification_failed := none, error := none,
        success := false, total_duration_ms := 0, steps_completed := [], steps_failed := [] }
    match prereqLoop world skill.pre_requisites with
    | .failedP msg =>
      finalizeExec skill inputs { baseLog with error := some msg } [] [] false (some msg) []
    | .ok =>
      let c7 := contextPreload skill.context7_required cb dryRun
      if dryRun then
        { result := { success := true, skill_name := skill.name, version := skill.version,
                      steps_completed := ["(dry run)"], steps_failed := [],
                      total_duration_ms := 0, log_file := none, error := none },
          finalInputs := inputs, log := none, events := c7.1 }
      else
        let sres := stepsLoop ctx oracle cb skill.rollback skill.steps inputs [] [] c7.2
        match sres.exit with
        | .failedAt completed fid ferr logs =>
          let errMsg := "Step " ++ quoteKey fid ++ " failed: " ++ (ferr.getD "None")
          finalizeExec skill inputs { baseLog with steps := logs, error := some errMsg }
            completed [fid] false (some errMsg) (c7.1 ++ sres.evs)
        | .done completed logs =>
          let vres := verifyLoop world oracle skill.verification inputs sres.eng
          match vres.exit with
          | .raisedV m =>
            finalizeExec skill inputs { baseLog with steps := logs, error := some m }
              completed [] false (some m) (c7.1 ++ sres.evs ++ vres.evs)
          | .failedV msg check =>
            finalizeExec skill inputs { baseLog with steps := logs, verification_failed := some check }
              completed [] false (some msg) (c7.1 ++ sres.evs ++ vres.evs)
          | .passedV =>
            finalizeExec skill inputs { baseLog with steps := logs, verification_passed := true }
              completed [] true none (c7.1 ++ sres.evs ++ vres.evs)

structure SkillCtrl where
  registry : List (String × SkillSpec)

def insertSorted (s : String) : List String → List String
  | [] => [s]
  | t :: rest => if s ≤ t then s :: t :: rest else t :: insertSorted s rest

def sortStrings : List String → List String
  | [] => []
  | s :: rest => insertSorted s (sortStrings rest)

def renderNames (l : List String) : String :=
  "[" ++ joinWith ", " (l.map quoteKey) ++ "]"

/-- Embedding of `SkillController.execute_skill` (ENFORCEMENT 1 + the rest): the
`SkillExec.finalInputs` field records the contents of the caller's
inputs dict when the call returns (the source mutates it in place). -/
def executeSkill (ctrl : SkillCtrl) (ctx : Ctx) (world : World)
    (oracle : Nat → ProcResult) (cb : Option (Nat → AgentResp))
    (name : String) (inputs0 : Inputs) (dryRun : Bool) : SkillExec :=
  match lookupA ctrl.registry name with
  | none =>
    { result := { success := false, skill_name := name, version := "unknown",
                  steps_completed := [], steps_failed := [], total_duration_ms := 0,
                  log_file := none,
                  error := some ("Skill " ++ quoteKey name
                    ++ " not found in registry. Available: "
                    ++ renderNames (sortStrings (ctrl.registry.map Prod.fst))) },
      finalInputs := inputs0, log := none, events := [] }
  | some skill => executeSkillSpec ctx world oracle cb skill inputs0 dryRun

/-! ## Workflow data model (`WorkflowController`) -/

structure Condition where
  ctype : String
  key : Option String
  value : Option Value
  path : Option String

/-- A phase record; `on_failure` carries the parse-time default
`"stop"` and `checkpoint` the default `false`. -/
structure Phase where
  name : String
  skill : String
  inputs : Inputs
  condition : Option Condition
  checkpoint : Bool
  checkpoint_message : Option String
  on_failure : String

structure WorkflowSpec where
  name : String
  version : String
  inputs : List (String × InputSpec)
  phases : List Phase
  update_context : Bool

/-- What the orchestrator reads off a `SkillResult` returned by
`SkillController.execute_skill` (the call-site boundary). -/
structure WfSkillRes where
  success : Bool
  error : Option String
  outputs : List (String × Value)

structure PhaseOut where
  success : Bool
  outputs : List (String × Value)

/-- Persisted `WorkflowState` (timestamps omitted — wall clock). -/
structure WfStateM where
  workflow_name : String
  version : String
  status : String
  current_phase_index : Nat
  inputs : Inputs
  phases_completed : List String
  phases_failed : List String
  phase_outputs : List (String × PhaseOut)
  error : Option String

/-! ## Registry loaders -/

/-- One candidate `skill.json`: its parse outcome and what
`jsonschema.validate` would decide for it. -/
structure SkillFile where
  parsed : Option SkillSpec
  schemaValid : Bool

structure WorkflowFile where
  parsed : Option WorkflowSpec
  schemaValid : Bool

def validatorMissingMsg : String :=
  "Schema validation required but jsonschema not installed. Run: pip install jsonschema"

/-- Embedding of `SkillController._load_registry` together with the `__init__` schema
load: the schema object exists only when the schema FILE exists AND
jsonschema is importable (`if self.schema_path.exists() and HAS_JSONSCHEMA`).
Returns the registry and the `logger.error` lines.  (`_path` stamping
carries no logic and is omitted.) -/
def loadSkillFiles (schemaLoaded hasJsonschema : Bool)
    (acc : List (String × SkillSpec) × List String) :
    List SkillFile → List (String × SkillSpec) × List String
  | [] => acc
  | f :: rest =>
    let acc2 :=
      match f.parsed with
      | none => (acc.1, acc.2 ++ ["Invalid JSON"])
      | some s =>
        if schemaLoaded then
          if !hasJsonschema then (acc.1, acc.2 ++ [validatorMissingMsg])
          else if !f.schemaValid then (acc.1, acc.2 ++ ["failed validation"])
          else (dictInsert acc.1 s.name s, acc.2)
        else (dictInsert acc.1 s.name s, acc.2)
    loadSkillFiles schemaLoaded hasJsonschema acc2 rest

def loadSkillRegistry (schemaOnDisk hasJsonschema : Bool) (files : List SkillFile) :
    List (String × SkillSpec) × List String :=
  loadSkillFiles (schemaOnDisk && hasJsonschema) hasJsonschema ([], []) files

/-- Embedding of `WorkflowController._load_registry` with its `__init__` schema load:
the schema object is loaded whenever the schema FILE exists, so a
missing validator raises the RuntimeError per file (caught and logged,
the file is skipped). -/
def loadWorkflowFiles (schemaLoaded hasJsonschema : Bool)
    (acc : List (String × WorkflowSpec) × List String) :
    List WorkflowFile → List (String × WorkflowSpec) × List String
  | [] => acc
  | f :: rest =>
    let acc2 :=
      match f.parsed with
      | none => (acc.1, acc.2 ++ ["Invalid JSON"])
      | some w =>
        if schemaLoaded then
          if !hasJsonschema then (acc.1, acc.2 ++ [validatorMissingMsg])
          else if !f.schemaValid then (acc.1, acc.2 ++ ["failed validation"])
          else (dictInsert acc.1 w.name w, acc.2)
        else (dictInsert acc.1 w.name w, acc.2)
    loadWorkflowFiles schemaLoaded hasJsonschema acc2 rest

def loadWorkflowRegistry (schemaOnDisk hasJsonschema : Bool) (files : List WorkflowFile) :
    List (String × WorkflowSpec) × List String :=
  loadWorkflowFiles schemaOnDisk hasJsonschema ([], []) files

/-- The spec-side reading of registry insertion: the last accepted spec
with a given name wins, starting from `init` (an accepted file is one
that parsed and, when validation is enforced, passed it). -/
def lastAccepted (enforced : Bool) (init : Option SkillSpec) :
    List SkillFile → String → Option SkillSpec
  | [], _ => init
  | f :: rest, name =>
    let init2 :=
      match f.parsed with
      | some s =>
        if (!enforced || f.schemaValid) && s.name == name then some s else init
      | none => init
    lastAccepted enforced init2 rest name

/-- The spec-side reading of workflow-registry insertion: the last
accepted file with a given name wins.  On the workflow side enforcement
is the schema file alone (`enforced`), and with the validator missing
(`hasJson = false`) an enforced load accepts nothing. -/
def lastAcceptedW (enforced hasJson : Bool) (init : Option WorkflowSpec) :
    List WorkflowFile → String → Option WorkflowSpec
  | [], _ => init
  | f :: rest, name =>
    let init2 :=
      match f.parsed with
      | some w =>
        if (!enforced || (hasJson && f.schemaValid)) && w.name == name then some w
        else init
      | none => init
    lastAcceptedW enforced hasJson init2 rest name

/-! ## Phase orchestrator -/

/-- Python truthiness of `inputs.get(key)`. -/
def truthy : Option Value → Bool
  | none => false
  | some (.str s) => !(s == "")
  | some (.num n) => !(n == 0)
  | some (.bool b) => b
  | some (.dict es) => !es.isEmpty
  | some (.list vs) => !vs.isEmpty

def optValueBeq : Option Value → Option Value → Bool
  | none, none => true
  | some a, some b => valueBeq a b
  | _, _ => false

/-- Embedding of `WorkflowController._check_condition`; a KeyError from
`path.format(**inputs)` escapes to the outer handler (`.error`). -/
def evalCondition (world : World) (c : Condition) (inputs : Inputs)
    (outs : List (String × PhaseOut)) : Except String Bool :=
  if c.ctype == "input_equals" then
    .ok (optValueBeq (c.key.bind (lookupA inputs)) c.value)
  else if c.ctype == "input_truthy" then
    .ok (truthy (c.key.bind (lookupA inputs)))
  else if c.ctype == "previous_success" then
    .ok (match c.key.bind (lookupA outs) with
         | some po => po.success
         | none => false)
  else if c.ctype == "file_exists" then
    match c.path with
    | none => .ok false
    | some p =>
      match interpolate p inputs with
      | .error k => .error (quoteKey k)
      | .ok fp => .ok (world.pathExists fp)
  else .ok true

/-- Condition gate: `phase.get("condition")` absent means run. -/
def condEval (world : World) (phase : Phase) (inputs : Inputs)
    (outs : List (String × PhaseOut)) : Except String Bool :=
  match phase.condition with
  | none => .ok true
  | some cond => evalCondition world cond inputs outs

structure WfEnv where
  world : World
  skillO : Nat → WfSkillRes
  cbO : Option (Nat → Bool)

/-- Loop-carried state of `execute_workflow`: index, oracle counters,
the mutable `WorkflowState`, the aggregate lists, the accumulated
`phase_outputs` and the on-disk state file contents (`fs`). -/
structure WfCarry where
  i : Nat
  skillN : Nat
  cbN : Nat
  st : WfStateM
  completed : List String
  failed : List String
  skipped : List String
  outs : List (String × PhaseOut)
  fs : Option WfStateM

inductive LoopExit where
  | finished (c : WfCarry)
  | stopFailed (c : WfCarry) (phaseName : String)
  | pausedExit (c : WfCarry) (phaseName : String)
  | condRaised (c : WfCarry) (msg : String)

inductive PhaseStep where
  | exitNow (e : LoopExit)
  | goOn (c : WfCarry)

/-- The failure/success bookkeeping after one skill invocation
(`on_failure` handling of `execute_workflow`): `stop` saves a failed
state and returns, `skip_remaining` breaks the loop, `continue` (or any
other value) falls through to the checkpoint block. -/
def afterSkill (phase : Phase) (c : WfCarry) (sr : WfSkillRes) : PhaseStep :=
  if sr.success then
    .goOn { c with
      completed := c.completed ++ [phase.name]
      st := { c.st with phases_completed := c.st.phases_completed ++ [phase.name] } }
  else
    let c2 := { c with
      failed := c.failed ++ [phase.name]
      st := { c.st with phases_failed := c.st.phases_failed ++ [phase.name] } }
    if phase.on_failure == "stop" then
      let st2 := { c2.st with
        status := "failed"
        error := some ("Phase " ++ quoteKey phase.name ++ " failed: "
          ++ (sr.error.getD "None")) }
      .exitNow (.stopFailed { c2 with st := st2, fs := some st2 } phase.name)
    else if phase.on_failure == "skip_remaining" then .exitNow (.finished c2)
    else .goOn c2

/-- The phase loop of `execute_workflow` over the remaining phases. -/
def wfLoop (env : WfEnv) (inputs : Inputs) : List Phase → WfCarry → LoopExit
  | [], c => .finished c
  | phase :: rest, c =>
    let c := { c with st := { c.st with current_phase_index := c.i } }
    match condEval env.world phase inputs c.outs with
    | .error m => .condRaised c m
    | .ok false =>
      wfLoop env inputs rest { c with skipped := c.skipped ++ [phase.name], i := c.i + 1 }
    | .ok true =>
      let sr := env.skillO c.skillN
      let outs2 := dictInsert c.outs phase.name { success := sr.success, outputs := sr.outputs }
      let c1 := { c with
        skillN := c.skillN + 1
        outs := outs2
        st := { c.st with phase_outputs := outs2 } }
      match afterSkill phase c1 sr with
      | .exitNow e => e
      | .goOn c2 =>
        if phase.checkpoint then
          let st2 := { c2.st with
            status := "paused"
            current_phase_index := c.i + 1
            phase_outputs := c2.outs }
          let c3 := { c2 with st := st2, fs := some st2 }
          match env.cbO with
          | some f =>
            if f c3.cbN then
              wfLoop env inputs rest { c3 with cbN := c3.cbN + 1, i := c.i + 1 }
            else .pausedExit { c3 with cbN := c3.cbN + 1 } phase.name
          | none => wfLoop env inputs rest { c3 with i := c.i + 1 }
        else wfLoop env inputs rest { c2 with i := c.i + 1 }

structure WorkflowResultM where
  success : Bool
  workflow_name : String
  version : String
  status : String
  phases_completed : List String
  phases_failed : List String
  phases_skipped : List String
  current_phase : Option String
  state_file : Option String
  error : Option String

structure WfExec where
  result : WorkflowResultM
  finalInputs : Inputs
  fs : Option WfStateM

structure WfCtrl where
  registry : List (String × WorkflowSpec)

def statePath (name : String) : String := name ++ "_state.json"

/-- The resume handling of `execute_workflow`: the starting phase
index, restored phase outputs and the (possibly merged) inputs used by
the loop.  A state file is restored only on `resume` with
`status == "paused"`; fresh inputs override restored ones. -/
def wfStart (wf : WorkflowSpec) (inputs0 : Inputs) (resume : Bool)
    (fs0 : Option WfStateM) : Nat × List (String × PhaseOut) × Inputs :=
  let withDef := applyDefaults wf.inputs inputs0
  if resume then
    match fs0 with
    | some st =>
      if st.status == "paused" then
        (st.current_phase_index, st.phase_outputs, mergeInputs st.inputs withDef)
      else (0, [], withDef)
    | none => (0, [], withDef)
  else (0, [], withDef)

/-- The loop-carry `execute_workflow` starts from: a fresh
`WorkflowState` with status `in_progress`, empty aggregates, restored
phase outputs and the untouched on-disk state file. -/
def wfCarry0 (wf : WorkflowSpec) (name : String) (inputs0 : Inputs) (resume : Bool)
    (fs0 : Option WfStateM) : WfCarry :=
  let resumed := wfStart wf inputs0 resume fs0
  { i := resumed.1, skillN := 0, cbN := 0,
    st := { workflow_name := name, version := wf.version, status := "in_progress",
            current_phase_index := resumed.1, inputs := resumed.2.2,
            phases_completed := [], phases_failed := [],
            phase_outputs := resumed.2.1, error := none },
    completed := [], failed := [], skipped := [], outs := resumed.2.1, fs := fs0 }

/-- Embedding of `WorkflowController.execute_workflow`.  `fs0` is the persisted
state file for this workflow name before the call; `WfExec.fs` its
contents after (``none`` = no file).  `finalInputs` is the caller's
inputs dict at return (the defaults loop mutates it in place; the
resume merge rebinds a fresh dict and does not).  The
`_update_project_context` side effect carries no control flow back into
the function and is not modelled; `KeyboardInterrupt` (host signal) is
not modelled. -/
def executeWorkflow (ctrl : WfCtrl) (env : WfEnv) (name : String) (inputs0 : Inputs)
    (dryRun resume : Bool) (fs0 : Option WfStateM) : WfExec :=
  match lookupA ctrl.registry name with
  | none =>
    { result := { success := false, workflow_name := name, version := "unknown",
                  status := "failed", phases_completed := [], phases_failed := [],
                  phases_skipped := [], current_phase := none, state_file := none,
                  error := some ("Workflow " ++ quoteKey name ++ " not found. Available: "
                    ++ renderNames (sortStrings (ctrl.registry.map Prod.fst))) },
      finalInputs := inputs0, fs := fs0 }
  | some wf =>
    let withDef := applyDefaults wf.inputs inputs0
    let resumed := wfStart wf inputs0 resume fs0
    let startPhase := resumed.1
    if dryRun then
      { result := { success := true, workflow_name := name, version := wf.version,
                    status := "completed", phases_completed := ["(dry run)"],
                    phases_failed := [], phases_skipped := [], current_phase := none,
                    state_file := none, error := none },
        finalInputs := withDef, fs := fs0 }
    else
      match wfLoop env resumed.2.2 (wf.phases.drop startPhase)
          (wfCarry0 wf name inputs0 resume fs0) with
      | .stopFailed c pn =>
        { result := { success := false, workflow_name := name, version := wf.version,
                      status := "failed", phases_completed := c.completed,
                      phases_failed := c.failed, phases_skipped := c.skipped,
                      current_phase := some pn, state_file := none,
                      error := some ("Phase " ++ quoteKey pn ++ " failed") },
          finalInputs := withDef, fs := c.fs }
      | .pausedExit c pn =>
        { result := { success := false, workflow_name := name, version := wf.version,
                      status := "paused", phases_completed := c.completed,
                      phases_failed := c.failed, phases_skipped := [],
                      current_phase := some pn, state_file := some (statePath name),
                      error := some "Paused at checkpoint" },
          finalInputs := withDef, fs := c.fs }
      | .condRaised c msg =>
        let st2 := { c.st with status := "failed", error := some msg }
        { result := { success := false, workflow_name := name, version := wf.version,
                      status := "failed", phases_completed := c.completed,
                      phases_failed := c.failed, phases_skipped := [],
                      current_phase := none, state_file := none, error := some msg },
          finalInputs := withDef, fs := some st2 }
      | .finished c =>
        let ok := c.failed.isEmpty
        { result := { success := ok, workflow_name := name, version := wf.version,
                      status := "completed", phases_completed := c.completed,
                      phases_failed := c.failed, phases_skipped := c.skipped,
                      current_phase := none, state_file := none, error := none },
          finalInputs := withDef, fs := if ok then none else c.fs }

/-! ## Concrete fixtures -/

def worldT : World :=
  { whichOk := fun _ => false, pathExists := fun _ => false, isFile := fun _ => false,
    isDir := fun _ => false, envHas := fun _ => false, jsonValidAt := fun _ => false }

def ctxW : Ctx := { basePath := ["home", "ws"], cwd := ["home", "ws"] }

def ok0 : Nat → ProcResult :=
  fun _ => { exitCode := 0, stdout := "", stderr := "", timedOut := false }

def bashStep (id cmd wd : String) (retry : Nat) : Step :=
  { id := id, type := "bash", cmd := cmd, working_dir := wd, env := [],
    timeout := 300, retry := retry, checkpoint_message := none, description := none,
    mcp_server := none, mcp_tool := none }

def pyStep (id cmd wd : String) : Step :=
  { bashStep id cmd wd 0 with type := "python" }

def mkSkill (name : String) (steps : List Step) (ver : List Check) (rb : List Step) :
    SkillSpec :=
  { name := name, version := "1.0.0", autonomy := "delegado", inputs := [],
    pre_requisites := [], context7_required := [], steps := steps,
    verification := ver, rollback := rb }

def spawnsOf (evs : List Event) : List Spawn :=
  evs.filterMap (fun e =>
    match e with
    | .spawned s => some s
    | _ => none)

/-- Fixture for C1: a python step whose working_dir climbs out of the
workspace. -/
def pyEscSkill : SkillSpec := mkSkill "pyesc" [pyStep "py" "print(1)" "../../etc"] [] []

/-- Fixture for C2: spec scenario 3, `build` with `retry: 2`. -/
def buildSkill : SkillSpec := mkSkill "builder" [bashStep "build" "make build" "." 2] [] []

/-- Oracle for C2: exit 1 twice, then exit 0. -/
def oracleRetry : Nat → ProcResult :=
  fun n =>
    if n < 2 then { exitCode := 1, stdout := "", stderr := "boom", timedOut := false }
    else { exitCode := 0, stdout := "ok", stderr := "", timedOut := false }

def demoSkill : SkillSpec := mkSkill "demo" [] [] []

def demoWf : WorkflowSpec :=
  { name := "demowf", version := "1.0.0", inputs := [], phases := [], update_context := true }

def skillXv1 : SkillSpec := mkSkill "x" [] [] []

def skillXv2 : SkillSpec := { mkSkill "x" [] [] [] with version := "2.0.0" }

def mkPhase (name skillName onf : String) : Phase :=
  { name := name, skill := skillName, inputs := [], condition := none,
    checkpoint := false, checkpoint_message := none, on_failure := onf }

/-- Fixture for C5: one phase, failure handled by `skip_remaining`. -/
def wfSkip : WorkflowSpec :=
  { name := "wf", version := "1.0.0", inputs := [],
    phases := [mkPhase "p1" "s1" "skip_remaining"], update_context := true }

def envFail : WfEnv :=
  { world := worldT,
    skillO := fun _ => { success := false, error := some "boom", outputs := [] },
    cbO := none }

def isRollbackSpawn : Event → Bool
  | .spawned s => s.sphase == .rollbackRun
  | _ => false

/-- Holds when a trace contains no rollback subprocess launch. -/
def noRollbackEvs (evs : List Event) : Bool :=
  evs.all (fun e => !isRollbackSpawn e)

/-- Fixture for C6: rollback list with a `cleanup` entry, an entry for
an uncompleted step and one for a completed step. -/
def rbW : List Step :=
  [bashStep "cleanup" "rm -rf tmp" "." 0,
   bashStep "c" "undo c" "." 0,
   bashStep "a" "undo a" "." 0]

/-- Fixture for C7: one succeeding step, one verification probe, and a
non-empty rollback list (so the no-rollback conclusion has content). -/
def vfSkill : SkillSpec :=
  mkSkill "vf" [bashStep "s1" "make out" "." 0]
    [{ ctype := "bash", cmd := "test -f out", path := "", expect_exit := 0,
       error_message := none }]
    [bashStep "cleanup" "rm -f out" "." 0]

/-- Oracle for C7: the step exits 0, the verification probe exits 1. -/
def oracleVF : Nat → ProcResult :=
  fun n =>
    if n == 0 then { exitCode := 0, stdout := "", stderr := "", timedOut := false }
    else { exitCode := 1, stdout := "", stderr := "", timedOut := false }

def ctrlEmpty : SkillCtrl := { registry := [] }

def ctrlDemo : SkillCtrl := { registry := [("demo", demoSkill)] }

/-- Fixture for C10: one optional input with a default. -/
def optSkill : SkillSpec :=
  { mkSkill "opt" [] [] [] with
    inputs := [("mode", { required := false, default := some (.str "fast"), enum := none })] }

def wfOpt : WorkflowSpec :=
  { name := "wopt", version := "1.0.0",
    inputs := [("mode", { required := false, default := some (.str "fast"), enum := none })],
    phases := [], update_context := true }

def ctrlWOpt : WfCtrl := { registry := [("wopt", wfOpt)] }

/-- Fixture for the C5 witness: one phase whose skill succeeds. -/
def wfOk : WorkflowSpec :=
  { name := "wf2", version := "1.0.0", inputs := [],
    phases := [mkPhase "p1" "s1" "stop"], update_context := true }

def envOk : WfEnv :=
  { world := worldT,
    skillO := fun _ => { success := true, error := none, outputs := [] },
    cbO := none }

def ctrlWOk : WfCtrl := { registry := [("wf2", wfOk)] }

/-- A stale persisted state file left by an earlier failed run. -/
def staleSt : WfStateM :=
  { workflow_name := "wf2", version := "1.0.0", status := "failed",
    current_phase_index := 0, inputs := [], phases_completed := [],
    phases_failed := ["p1"], phase_outputs := [], error := some "old" }

/-- Fixture for the C1 witness: a bash step with an escaping working_dir. -/
def bashEscStep : Step := bashStep "b" "ls" "../../etc" 0

/-- Fixture for the C1 witness: a bash step with a contained working_dir. -/
def bashInStep : Step := bashStep "b" "ls" "sub/dir" 0

/-- Fixture for the C5 witness: one checkpointed phase whose skill
succeeds. -/
def wfCk : WorkflowSpec :=
  { name := "wfc", version := "1.0.0", inputs := [],
    phases := [{ mkPhase "p1" "s1" "stop" with checkpoint := true }],
    update_context := true }

/-- A host whose checkpoint hook declines to continue. -/
def envPause : WfEnv :=
  { world := worldT,
    skillO := fun _ => { success := true, error := none, outputs := [] },
    cbO := some (fun _ => false) }

def ctrlWCk : WfCtrl := { registry := [("wfc", wfCk)] }

/-- Fixtures for the workflow half of C4: two parseable workflows
sharing the name `wx`. -/
def wfXv1 : WorkflowSpec :=
  { name := "wx", version := "1.0.0", inputs := [], phases := [], update_context := true }

def wfXv2 : WorkflowSpec := { wfXv1 with version := "2.0.0" }

/-! ## Shared lemmas -/

theorem lookupA_dictInsert {A : Type} (r : List (String × A)) (k k2 : String) (v : A) :
    lookupA (dictInsert r k v) k2 = if k == k2 then some v else lookupA r k2 := by
  induction r with
  | nil => simp [dictInsert, lookupA]
  | cons hd t ih =>
    obtain ⟨k0, v0⟩ := hd
    by_cases h1 : k0 = k
    · subst h1
      by_cases h2 : k0 = k2
      · subst h2; simp [dictInsert, lookupA]
      · simp [dictInsert, lookupA, h2]
    · by_cases h2 : k0 = k2
      · subst h2
        have hkk : ¬k = k0 := fun hh => h1 hh.symm
        simp [dictInsert, lookupA, h1, hkk]
      · simp [dictInsert, lookupA, h1, h2, ih]

theorem loadSkillFiles_lookup (hj : Bool) (files : List SkillFile)
    (e : Bool) (he : e = true → hj = true)
    (reg : List (String × SkillSpec)) (errs : List String) (name : String) :
    lookupA (loadSkillFiles e hj (reg, errs) files).1 name
      = lastAccepted e (lookupA reg name) files name := by
  induction files generalizing reg errs with
  | nil => simp [loadSkillFiles, lastAccepted]
  | cons f rest ih =>
    simp only [loadSkillFiles, lastAccepted]
    cases hp : f.parsed with
    | none => exact ih reg (errs ++ ["Invalid JSON"]) -- skipped file, accumulator unchanged
    | some s =>
      by_cases hsl : e = true
      · have hhj : hj = true := he hsl
        subst hsl; subst hhj
        simp only [Bool.not_true, ite_true, Bool.false_or]
        by_cases hv : f.schemaValid = true
        · simp only [hv, Bool.not_true, ite_false, Bool.true_and]
          by_cases hn : s.name = name
          · subst hn
            rw [ih]
            simp [lookupA_dictInsert]
          · have : (s.name == name) = false := by simp [hn]
            rw [ih]
            simp [lookupA_dictInsert, hn, this]
        · simp only [Bool.not_eq_true] at hv
          simp [hv, ih]
      · have he2 : e = false := by revert hsl; cases e <;> simp
        subst he2
        simp only [ite_false, Bool.not_false, Bool.true_or, Bool.true_and]
        by_cases hn : s.name = name
        · subst hn
          rw [ih]
          simp [lookupA_dictInsert]
        · rw [ih]
          simp [lookupA_dictInsert, hn]

theorem loadWorkflowFiles_lookup (e hj : Bool) (files : List WorkflowFile) :
    ∀ (reg : List (String × WorkflowSpec)) (errs : List String) (name : String),
      lookupA (loadWorkflowFiles e hj (reg, errs) files).1 name
        = lastAcceptedW e hj (lookupA reg name) files name := by
  induction files with
  | nil =>
    intro reg errs name
    simp [loadWorkflowFiles, lastAcceptedW]
  | cons f rest ih =>
    intro reg errs name
    simp only [loadWorkflowFiles, lastAcceptedW]
    cases hp : f.parsed with
    | none => exact ih reg (errs ++ ["Invalid JSON"]) name
    | some w =>
      cases e with
      | false =>
        simp only [Bool.false_eq_true, if_false, Bool.not_false, Bool.true_or,
          Bool.true_and]
        by_cases hn : w.name = name
        · subst hn
          rw [ih]
          simp [lookupA_dictInsert]
        · rw [ih]
          simp [lookupA_dictInsert, hn]
      | true =>
        cases hj with
        | false =>
          simp only [if_true, Bool.not_false, ite_true, Bool.not_true, Bool.false_and,
            Bool.false_or, Bool.false_eq_true, if_false]
          exact ih reg (errs ++ [validatorMissingMsg]) name
        | true =>
          simp only [if_true, Bool.not_true, Bool.false_eq_true, if_false,
            Bool.true_and]
          by_cases hv : f.schemaValid = true
          · simp only [hv, Bool.not_true, Bool.false_eq_true, if_false]
            by_cases hn : w.name = name
            · subst hn
              rw [ih]
              simp [lookupA_dictInsert]
            · rw [ih]
              simp [lookupA_dictInsert, hn]
          · have hv2 : f.schemaValid = false := by
              revert hv; cases f.schemaValid <;> simp
            simp only [hv2, Bool.not_false, ite_true, Bool.false_and, Bool.false_eq_true,
              if_false]
            exact ih reg (errs ++ ["failed validation"]) name

/-! ## C3 — schema present, validator unavailable -/

/-- C3: evaluation at the failing configuration (a schema file present
on disk, the jsonschema library unavailable, one parseable spec file).
The claim says both registry loads fail with a distinct
SchemaValidatorMissing error and no spec loads unvalidated.  The
workflow loader does reject each file with the validator-missing error,
but the skill loader — whose constructor only loads the schema object
when the validator IS importable — silently loads the spec without any
validation and reports no error. -/
theorem c3_schema_validator_gap :
    loadSkillRegistry true false [{ parsed := some demoSkill, schemaValid := false }]
      = ([("demo", demoSkill)], [])
    ∧ loadWorkflowRegistry true false [{ parsed := some demoWf, schemaValid := false }]
      = ([], [validatorMissingMsg]) :=
  ⟨rfl, rfl⟩

/-! ## C4 — registry uniqueness -/

/-- C4 (counterexample): loading two parseable specs that share a name
is not an error, in either registry — the skill loader and the workflow
loader both report no error line and silently hold the last-loaded
spec, contradicting the claim that duplicate names are rejected. -/
theorem c4_duplicate_names_counterexample :
    (loadSkillRegistry false true
        [{ parsed := some skillXv1, schemaValid := true },
         { parsed := some skillXv2, schemaValid := true }]
      = ([("x", skillXv2)], [])
     ∧ skillXv2 ≠ skillXv1)
    ∧ (loadWorkflowRegistry false true
        [{ parsed := some wfXv1, schemaValid := true },
         { parsed := some wfXv2, schemaValid := true }]
      = ([("wx", wfXv2)], [])
     ∧ wfXv2 ≠ wfXv1) := by
  refine ⟨⟨rfl, ?_⟩, ⟨rfl, ?_⟩⟩
  · intro h
    have h2 := congrArg SkillSpec.version h
    simp [skillXv1, skillXv2, mkSkill] at h2
  · intro h
    have h2 := congrArg WorkflowSpec.version h
    simp [wfXv1, wfXv2] at h2

/-- C4 (amended): loading two specs with the same name is NOT an error;
for skills and workflows alike, and for any schema configuration, the
registry maps every name to the last accepted file carrying it
(last-wins). -/
theorem c4_registry_last_wins :
    (∀ (sd hj : Bool) (files : List SkillFile) (name : String),
       lookupA (loadSkillRegistry sd hj files).1 name
         = lastAccepted (sd && hj) none files name)
    ∧ (∀ (sd hj : Bool) (wfiles : List WorkflowFile) (name : String),
       lookupA (loadWorkflowRegistry sd hj wfiles).1 name
         = lastAcceptedW sd hj none wfiles name) := by
  constructor
  · intro sd hj files name
    have he : (sd && hj) = true → hj = true := by cases sd <;> cases hj <;> simp
    have h := loadSkillFiles_lookup hj files (sd && hj) he [] [] name
    simpa [loadSkillRegistry, lookupA] using h
  · intro sd hj wfiles name
    have h := loadWorkflowFiles_lookup sd hj wfiles [] [] name
    simpa [loadWorkflowRegistry, lookupA] using h

/-! ## C1 — path containment before spawning -/

/-- C1 (counterexample): a python step whose `working_dir` is
`../../etc` under base `/home/ws` DOES spawn a subprocess, whose
working directory resolves to `/etc`, outside the base path, and the
step succeeds — no PathEscape failure.  This falsifies the claim that
every bash/python step has its working directory containment-checked
before the subprocess is spawned. -/
theorem c1_python_escape_counterexample :
    (executeSkillSpec ctxW worldT ok0 none pyEscSkill [] false).result.success = true
    ∧ spawnsOf (executeSkillSpec ctxW worldT ok0 none pyEscSkill [] false).events
        = [{ cmd := "print(1)", cwd := some ["etc"], timeoutSec := some 300,
             sphase := .stepRun }]
    ∧ withinBase ctxW.basePath ["etc"] = false :=
  ⟨rfl, rfl, rfl⟩

/-- C1 (amended): the containment guarantee holds for BASH steps only —
every subprocess a bash step spawns with an explicit working directory
has it resolved within the base path, and an interpolated working_dir
resolving outside the base yields a failing step result carrying the
SECURITY (PathEscape) error with no subprocess spawned.  Python steps
(see the counterexample) pass their working_dir through unchecked. -/
theorem c1_bash_path_containment (ctx : Ctx) (oracle : Nat → ProcResult)
    (cb : Option (Nat → AgentResp)) (step : Step) (inputs : Inputs) (eng : Eng)
    (ht : step.type = "bash") :
    (∀ sp, Event.spawned sp ∈ (execStep ctx oracle cb step inputs eng).2.1 →
       ∀ d, sp.cwd = some d → withinBase ctx.basePath d = true)
    ∧ (∀ cmdS wdS, interpolate step.cmd inputs = .ok cmdS →
         step.working_dir ≠ "." →
         interpolate step.working_dir inputs = .ok wdS →
         withinBase ctx.basePath (resolve ctx.cwd wdS) = false →
         (execStep ctx oracle cb step inputs eng).1.success = false
         ∧ (execStep ctx oracle cb step inputs eng).1.error
             = some (securityMsg "working_dir" wdS ctx)
         ∧ (execStep ctx oracle cb step inputs eng).2.1 = []) := by
  constructor
  · simp only [execStep, ht, beq_self_eq_true, if_true]
    cases hc : interpolate step.cmd inputs with
    | error k => simp [failStep]
    | ok cmd =>
      by_cases hwd : step.working_dir = "."
      · intro sp hmem d hd
        simp only [hwd, beq_self_eq_true, if_true, runSpawn] at hmem
        simp at hmem
        subst hmem
        simp at hd
      · have hb : (step.working_dir == ".") = false := by simp [hwd]
        simp only [hb, Bool.false_eq_true, if_false]
        cases hi : interpolate step.working_dir inputs with
        | error k =>
          intro sp hmem
          simp [failStep] at hmem
        | ok wdS0 =>
          by_cases hwb : withinBase ctx.basePath (resolve ctx.cwd wdS0) = true
          · simp only [hwb, if_true]
            intro sp hmem d hd
            simp only [runSpawn] at hmem
            simp at hmem
            subst hmem
            simp at hd
            rw [← hd]
            exact hwb
          · have hwb2 : withinBase ctx.basePath (resolve ctx.cwd wdS0) = false := by
              revert hwb; cases withinBase ctx.basePath (resolve ctx.cwd wdS0) <;> simp
            simp only [hwb2, Bool.false_eq_true, if_false]
            intro sp hmem
            simp [failStep] at hmem
  · intro cmdS wdS hcmd hne hwdok hesc
    have hb : (step.working_dir == ".") = false := by simp [hne]
    simp only [execStep, ht, beq_self_eq_true, if_true, hcmd, hb,
      Bool.false_eq_true, if_false, hwdok, hesc]
    simp [failStep]

/-- C1 (witness): the bash-side guarantee applied to a concrete
escaping step — the step fails with the SECURITY error and nothing is
spawned. -/
theorem c1_bash_path_containment_witness :
    (execStep ctxW ok0 none bashEscStep [] eng0).1.success = false
    ∧ (execStep ctxW ok0 none bashEscStep [] eng0).2.1 = [] := by
  have h := (c1_bash_path_containment ctxW ok0 none bashEscStep [] eng0 rfl).2
    "ls" "../../etc" rfl (by decide) rfl rfl
  exact ⟨h.1, h.2.2⟩

/-! ## C2 — retry accounting in the persisted log -/

/-- C2: evaluation at the failing input (spec scenario 3: step `build`
with `retry: 2`; the subprocess exits 1, 1, then 0).  Three attempts
are made, the skill succeeds and `steps_completed = ["build"]` as the
claim says — but the persisted log's entry for `build` is the one
appended right after the FIRST attempt: status `failed`, the first
attempt's error, and `retries_used = 0`; the claimed successful entry
with `retries_used = 2` is never written (the in-memory
`result.retries_used = attempt + 1` update is dead). -/
theorem c2_retry_log_divergence :
    (executeSkillSpec ctxW worldT oracleRetry none buildSkill [] false).result.success = true
    ∧ (executeSkillSpec ctxW worldT oracleRetry none buildSkill [] false).result.steps_completed
        = ["build"]
    ∧ (spawnsOf (executeSkillSpec ctxW worldT oracleRetry none buildSkill [] false).events).length
        = 3
    ∧ (executeSkillSpec ctxW worldT oracleRetry none buildSkill [] false).log = some
        { skill := "builder", version := "1.0.0", autonomy := "delegado",
          inputs := sanitizeEntries [], dry_run := false,
          steps := [{ id := "build", type := "bash", status := "failed",
                      duration_ms := 0, output := "", error := some "boom",
                      retries_used := 0 }],
          verification_passed := true, verification_failed := none, error := none,
          success := true, total_duration_ms := 0,
          steps_completed := ["build"], steps_failed := [] } :=
  ⟨rfl, rfl, rfl, rfl⟩

/-! ## C5 — workflow state persistence -/

theorem afterSkill_stop (phase : Phase) (c : WfCarry) (sr : WfSkillRes) (c2 : WfCarry)
    (pn : String) (h : afterSkill phase c sr = .exitNow (.stopFailed c2 pn)) :
    c2.fs = some c2.st ∧ c2.st.status = "failed" := by
  unfold afterSkill at h
  split at h
  · exact PhaseStep.noConfusion h
  · split at h
    · injection h with h1
      injection h1 with h2 h3
      subst h2
      exact ⟨rfl, rfl⟩
    · split at h
      · injection h with h1
        exact LoopExit.noConfusion h1
      · exact PhaseStep.noConfusion h

theorem afterSkill_finished (phase : Phase) (c : WfCarry) (sr : WfSkillRes) (c2 : WfCarry)
    (h : afterSkill phase c sr = .exitNow (.finished c2)) :
    c2.fs = c.fs := by
  unfold afterSkill at h
  split at h
  · exact PhaseStep.noConfusion h
  · split at h
    · injection h with h1
      exact LoopExit.noConfusion h1
    · split at h
      · injection h with h1
        injection h1 with h2
        subst h2
        rfl
      · exact PhaseStep.noConfusion h

theorem afterSkill_goOn (phase : Phase) (c : WfCarry) (sr : WfSkillRes) (c2 : WfCarry)
    (h : afterSkill phase c sr = .goOn c2) :
    c2.fs = c.fs := by
  unfold afterSkill at h
  split at h
  · injection h with h1
    subst h1
    rfl
  · split at h
    · exact PhaseStep.noConfusion h
    · split at h
      · exact PhaseStep.noConfusion h
      · injection h with h1
        subst h1
        rfl

/-- A `stopFailed` exit always carries a state file just saved with
status `failed`. -/
theorem wfLoop_stop (env : WfEnv) (inputs : Inputs) :
    ∀ (phases : List Phase) (c c2 : WfCarry) (pn : String),
      wfLoop env inputs phases c = .stopFailed c2 pn →
      c2.fs = some c2.st ∧ c2.st.status = "failed" := by
  intro phases
  induction phases with
  | nil =>
    intro c c2 pn h
    simp [wfLoop] at h
  | cons phase rest ih =>
    intro c c2 pn h
    simp only [wfLoop] at h
    split at h
    · exact LoopExit.noConfusion h
    · exact ih _ _ _ h
    · split at h
      · rename_i e heq
        subst h
        exact afterSkill_stop _ _ _ _ _ heq
      · split at h
        · split at h
          · split at h
            · exact ih _ _ _ h
            · exact LoopExit.noConfusion h
          · exact ih _ _ _ h
        · exact ih _ _ _ h

theorem afterSkill_no_pause (phase : Phase) (c : WfCarry) (sr : WfSkillRes)
    (c2 : WfCarry) (pn : String)
    (h : afterSkill phase c sr = .exitNow (.pausedExit c2 pn)) : False := by
  unfold afterSkill at h
  split at h
  · exact PhaseStep.noConfusion h
  · split at h
    · injection h with h1
      exact LoopExit.noConfusion h1
    · split at h
      · injection h with h1
        exact LoopExit.noConfusion h1
      · exact PhaseStep.noConfusion h

/-- A `pausedExit` always carries a state file just saved with status
`paused`. -/
theorem wfLoop_paused (env : WfEnv) (inputs : Inputs) :
    ∀ (phases : List Phase) (c c2 : WfCarry) (pn : String),
      wfLoop env inputs phases c = .pausedExit c2 pn →
      c2.fs = some c2.st ∧ c2.st.status = "paused" := by
  intro phases
  induction phases with
  | nil =>
    intro c c2 pn h
    simp [wfLoop] at h
  | cons phase rest ih =>
    intro c c2 pn h
    simp only [wfLoop] at h
    split at h
    · exact LoopExit.noConfusion h
    · exact ih _ _ _ h
    · split at h
      · rename_i e heq
        subst h
        exact (afterSkill_no_pause _ _ _ _ _ heq).elim
      · split at h
        · split at h
          · split at h
            · exact ih _ _ _ h
            · injection h with h1 h2
              subst h1
              exact ⟨rfl, rfl⟩
          · exact ih _ _ _ h
        · exact ih _ _ _ h

/-- When no phase declares a checkpoint, a `finished` exit leaves the
state file exactly as it was on entry. -/
theorem wfLoop_finished_fs (env : WfEnv) (inputs : Inputs) :
    ∀ (phases : List Phase) (c c2 : WfCarry),
      (∀ p ∈ phases, p.checkpoint = false) →
      wfLoop env inputs phases c = .finished c2 →
      c2.fs = c.fs := by
  intro phases
  induction phases with
  | nil =>
    intro c c2 _ h
    simp only [wfLoop] at h
    injection h with h1
    subst h1
    rfl
  | cons phase rest ih =>
    intro c c2 hcp h
    have hhead : phase.checkpoint = false := hcp phase (List.mem_cons_self _ _)
    have htail : ∀ p ∈ rest, p.checkpoint = false :=
      fun p hp => hcp p (List.mem_cons_of_mem _ hp)
    simp only [wfLoop] at h
    split at h
    · exact LoopExit.noConfusion h
    · have h5 := ih _ _ htail h
      exact h5
    · split at h
      · subst h
        rename_i heq7
        have h7 := afterSkill_finished _ _ _ _ heq7
        exact h7
      · rename_i c3 heq
        rw [hhead] at h
        simp only [Bool.false_eq_true, if_false] at h
        have h4 := ih _ _ htail h
        have h6 := afterSkill_goOn _ _ _ _ heq
        exact h4.trans h6

/-- C5 (counterexample): a workflow whose only phase fails under
`on_failure = skip_remaining` returns failure (status `completed`,
`phases_failed = ["p1"]`) yet no state file is persisted — the claim
that every failing `execute_workflow` invocation persists state
(including `skip_remaining`/`continue` failures) is false. -/
theorem c5_skip_remaining_no_state_counterexample :
    (executeWorkflow { registry := [("wf", wfSkip)] } envFail "wf" [] false false none).result.success
      = false
    ∧ (executeWorkflow { registry := [("wf", wfSkip)] } envFail "wf" [] false false none).result.phases_failed
      = ["p1"]
    ∧ (executeWorkflow { registry := [("wf", wfSkip)] } envFail "wf" [] false false none).result.status
      = "completed"
    ∧ (executeWorkflow { registry := [("wf", wfSkip)] } envFail "wf" [] false false none).fs
      = none :=
  ⟨rfl, rfl, rfl, rfl⟩

/-- C5 (amended): state is persisted by stop-failures, internal errors
and checkpoint pauses, cleared by success, but not by
`skip_remaining`/`continue` failures: for every registered workflow run
(not dry), (a) a successful result implies the state file is gone, (b)
a FAILED-status result implies a state file with status `failed` is on
disk, (c) without checkpoints, a failing run that still reports status
`completed` (the `skip_remaining`/`continue` aggregate) leaves the
state file exactly as it was before the call — no state is persisted
for it — and (d) a paused return leaves a state file with status
`paused` on disk and references it in the result. -/
theorem c5_state_lifecycle (ctrl : WfCtrl) (env : WfEnv) (name : String)
    (inputs0 : Inputs) (resume : Bool) (fs0 : Option WfStateM) (wf : WorkflowSpec)
    (hfound : lookupA ctrl.registry name = some wf) :
    ((executeWorkflow ctrl env name inputs0 false resume fs0).result.success = true →
       (executeWorkflow ctrl env name inputs0 false resume fs0).fs = none)
    ∧ ((executeWorkflow ctrl env name inputs0 false resume fs0).result.status = "failed" →
       ∃ st, (executeWorkflow ctrl env name inputs0 false resume fs0).fs = some st
         ∧ st.status = "failed")
    ∧ ((∀ p ∈ wf.phases, p.checkpoint = false) →
       (executeWorkflow ctrl env name inputs0 false resume fs0).result.success = false →
       (executeWorkflow ctrl env name inputs0 false resume fs0).result.status = "completed" →
       (executeWorkflow ctrl env name inputs0 false resume fs0).fs = fs0)
    ∧ ((executeWorkflow ctrl env name inputs0 false resume fs0).result.status = "paused" →
       ∃ st, (executeWorkflow ctrl env name inputs0 false resume fs0).fs = some st
         ∧ st.status = "paused"
         ∧ (executeWorkflow ctrl env name inputs0 false resume fs0).result.state_file
             = some (statePath name)) := by
  simp only [executeWorkflow, hfound, Bool.false_eq_true, if_false]
  cases hx : wfLoop env (wfStart wf inputs0 resume fs0).2.2
      (wf.phases.drop (wfStart wf inputs0 resume fs0).1)
      (wfCarry0 wf name inputs0 resume fs0) with
  | finished c =>
    refine ⟨?_, ?_, ?_, ?_⟩
    · intro hs
      simp only at hs
      simp [hs]
    · intro hst
      simp only at hst
      simp at hst
    · intro hcp hs hst
      simp only at hs
      simp only [hs, Bool.false_eq_true, if_false]
      have hdrop : ∀ p ∈ wf.phases.drop (wfStart wf inputs0 resume fs0).1,
          p.checkpoint = false :=
        fun p hp => hcp p (List.drop_subset _ _ hp)
      have h2 := wfLoop_finished_fs env _ _ _ _ hdrop hx
      exact h2
    · intro hst
      simp only at hst
      simp at hst
  | stopFailed c pn =>
    refine ⟨?_, ?_, ?_, ?_⟩
    · intro hs
      simp at hs
    · intro _
      obtain ⟨h1, h2⟩ := wfLoop_stop env _ _ _ _ _ hx
      exact ⟨c.st, h1, h2⟩
    · intro _ _ hst
      simp at hst
    · intro hst
      simp at hst
  | pausedExit c pn =>
    refine ⟨?_, ?_, ?_, ?_⟩
    · intro hs
      simp at hs
    · intro hst
      simp at hst
    · intro _ _ hst
      simp at hst
    · intro _
      obtain ⟨h1, h2⟩ := wfLoop_paused env _ _ _ _ _ hx
      exact ⟨c.st, h1, h2, rfl⟩
  | condRaised c msg =>
    refine ⟨?_, ?_, ?_, ?_⟩
    · intro hs
      simp at hs
    · intro _
      exact ⟨_, rfl, rfl⟩
    · intro _ _ hst
      simp at hst
    · intro hst
      simp at hst

/-- C5 (witness): running the one-phase succeeding workflow over a
stale state file deletes it, and a checkpointed run whose hook declines
returns paused with the state file referenced. -/
theorem c5_state_lifecycle_witness :
    (executeWorkflow ctrlWOk envOk "wf2" [] false false (some staleSt)).fs = none
    ∧ (executeWorkflow ctrlWCk envPause "wfc" [] false false none).result.state_file
        = some (statePath "wfc") :=
  ⟨(c5_state_lifecycle ctrlWOk envOk "wf2" [] false (some staleSt) wfOk rfl).1 rfl,
   match (c5_state_lifecycle ctrlWCk envPause "wfc" [] false none wfCk rfl).2.2.2 rfl with
   | ⟨_, _, _, h3⟩ => h3⟩

/-! ## C6 — rollback protocol -/

theorem rollbackSpawns_eq (rb : List Step) (completed : List String) (inputs : Inputs)
    (h : ∀ r ∈ selectedRollback rb completed, (interpolate r.cmd inputs).isOk = true) :
    rollbackSpawns rb completed inputs
      = (selectedRollback rb completed).map
          (fun r => { cmd := interpOr r.cmd inputs, cwd := none, timeoutSec := some 60,
                      sphase := .rollbackRun }) := by
  induction rb with
  | nil => rfl
  | cons r rest ih =>
    by_cases hsel : (completed.contains r.id || r.id == "cleanup") = true
    · have hr : r ∈ selectedRollback (r :: rest) completed := by
        simp only [selectedRollback, List.filter_cons, hsel, if_true]
        exact List.mem_cons_self _ _
      have hok := h r hr
      have htail : ∀ q ∈ selectedRollback rest completed,
          (interpolate q.cmd inputs).isOk = true := by
        intro q hq
        refine h q ?_
        simp only [selectedRollback, List.filter_cons, hsel, if_true]
        exact List.mem_cons_of_mem _ hq
      cases hI : interpolate r.cmd inputs with
      | error e =>
        rw [hI] at hok
        simp [Except.isOk, Except.toBool] at hok
      | ok cval =>
        simp only [rollbackSpawns, selectedRollback, List.filterMap_cons, List.filter_cons,
          hsel, if_true, hI, List.map_cons]
        rw [show rollbackSpawns rest completed inputs
              = rest.filterMap _ from rfl] at ih
        refine congrArg₂ List.cons ?_ (ih htail)
        simp [interpOr, hI]
    · have hsel2 : (completed.contains r.id || r.id == "cleanup") = false := by
        revert hsel; cases completed.contains r.id || r.id == "cleanup" <;> simp
      have htail : ∀ q ∈ selectedRollback rest completed,
          (interpolate q.cmd inputs).isOk = true := by
        intro q hq
        refine h q ?_
        simp only [selectedRollback, List.filter_cons, hsel2]
        simpa [selectedRollback] using hq
      simp only [rollbackSpawns, selectedRollback, List.filterMap_cons, List.filter_cons,
        hsel2]
      simpa [rollbackSpawns, selectedRollback] using ih htail

/-- Rollback entries influence only the emitted events: the step-loop
exit and the oracle counters are the same for any rollback list. -/
theorem stepsLoop_exit_frame (ctx : Ctx) (oracle : Nat → ProcResult)
    (cb : Option (Nat → AgentResp)) (rb rb2 : List Step) :
    ∀ (steps : List Step) (inputs : Inputs) (completed : List String)
      (logs : List LogStep) (eng : Eng),
      (stepsLoop ctx oracle cb rb2 steps inputs completed logs eng).exit
        = (stepsLoop ctx oracle cb rb steps inputs completed logs eng).exit
      ∧ (stepsLoop ctx oracle cb rb2 steps inputs completed logs eng).eng
        = (stepsLoop ctx oracle cb rb steps inputs completed logs eng).eng := by
  intro steps
  induction steps with
  | nil => intro inputs completed logs eng; exact ⟨rfl, rfl⟩
  | cons step rest ih =>
    intro inputs completed logs eng
    simp only [stepsLoop]
    cases hE : execStep ctx oracle cb step inputs eng with
    | mk r1 p1 =>
      cases p1 with
      | mk evs1 eng1 =>
        by_cases hs : r1.success = true
        · simp only [hs, if_true]
          exact ih inputs (completed ++ [step.id]) (logs ++ [mkLogStep step r1]) eng1
        · have hs2 : r1.success = false := by
            revert hs; cases r1.success <;> simp
          simp only [hs2, Bool.false_eq_true, if_false]
          cases hR : retryLoop ctx oracle cb step inputs step.retry 0 r1 eng1 with
          | mk rF p2 =>
            cases p2 with
            | mk evsR eng2 =>
              by_cases hf : rF.success = true
              · simp only [hf, if_true]
                exact ih inputs (completed ++ [step.id]) (logs ++ [mkLogStep step r1]) eng2
              · have hf2 : rF.success = false := by
                  revert hf; cases rF.success <;> simp
                simp only [hf2, Bool.false_eq_true, if_false]
                exact ⟨trivial, trivial⟩

/-- C6: when every selected rollback entry interpolates, the rollback
commands spawned are exactly the entries whose id is in
`steps_completed` or equals the literal `cleanup`, in declaration
order, each as a shell spawn with the fixed 60-second timeout and no
oracle feedback; and rollback outcomes never alter the skill's result
or its persisted log — replacing the whole rollback list changes
neither. -/
theorem c6_rollback_protocol (rb : List Step) (completed : List String) (inputs : Inputs)
    (hok : ∀ r ∈ selectedRollback rb completed, (interpolate r.cmd inputs).isOk = true) :
    rollbackSpawns rb completed inputs
      = (selectedRollback rb completed).map
          (fun r => { cmd := interpOr r.cmd inputs, cwd := none, timeoutSec := some 60,
                      sphase := .rollbackRun })
    ∧ ∀ (ctx : Ctx) (world : World) (oracle : Nat → ProcResult)
        (cb : Option (Nat → AgentResp)) (skill : SkillSpec) (rbAlt : List Step)
        (inputs0 : Inputs) (dry : Bool),
        (executeSkillSpec ctx world oracle cb { skill with rollback := rbAlt } inputs0 dry).result
          = (executeSkillSpec ctx world oracle cb skill inputs0 dry).result
        ∧ (executeSkillSpec ctx world oracle cb { skill with rollback := rbAlt } inputs0 dry).log
          = (executeSkillSpec ctx world oracle cb skill inputs0 dry).log := by
  refine ⟨rollbackSpawns_eq rb completed inputs hok, ?_⟩
  intro ctx world oracle cb skill rbAlt inputs0 dry
  cases skill with
  | mk nm ver au ins pr c7 st ve rb0 =>
    simp only [executeSkillSpec]
    cases hv : validateInputs ins inputs0 with
    | some err => exact ⟨rfl, rfl⟩
    | none =>
      cases hp : prereqLoop world pr with
      | failedP msg => exact ⟨rfl, rfl⟩
      | ok =>
        by_cases hd : dry = true
        · simp only [hd]
          exact ⟨rfl, rfl⟩
        · have hd2 : dry = false := by revert hd; cases dry <;> simp
          subst hd2
          obtain ⟨hex, heng⟩ := stepsLoop_exit_frame ctx oracle cb rb0 rbAlt st
            (applyDefaults ins inputs0) [] [] (contextPreload c7 cb false).2
          rw [hex, heng]
          cases (stepsLoop ctx oracle cb rb0 st (applyDefaults ins inputs0) [] []
              (contextPreload c7 cb false).2).exit with
          | failedAt a b c d => exact ⟨rfl, rfl⟩
          | done a b =>
            cases (verifyLoop world oracle ve (applyDefaults ins inputs0)
                (stepsLoop ctx oracle cb rb0 st (applyDefaults ins inputs0) [] []
                  (contextPreload c7 cb false).2).eng).exit with
            | passedV => exact ⟨rfl, rfl⟩
            | failedV m ck => exact ⟨rfl, rfl⟩
            | raisedV m => exact ⟨rfl, rfl⟩

/-- C6 (witness): with `steps_completed = ["a", "b"]` and rollback list
`[cleanup, c, a]`, the spawned rollback commands are exactly those of
`cleanup` and `a`, in that order, each with the 60-second timeout. -/
theorem c6_rollback_protocol_witness :
    rollbackSpawns rbW ["a", "b"] []
      = (selectedRollback rbW ["a", "b"]).map
          (fun r => { cmd := interpOr r.cmd [], cwd := none, timeoutSec := some 60,
                      sphase := SpawnPhase.rollbackRun }) :=
  (c6_rollback_protocol rbW ["a", "b"] [] (by decide)).1

/-! ## C7 — verification failure triggers no rollback -/

theorem noRollbackEvs_append (a b : List Event) :
    noRollbackEvs (a ++ b) = (noRollbackEvs a && noRollbackEvs b) := by
  simp [noRollbackEvs, List.all_append]

theorem noRb_logWrite (lg : ExecLog) : noRollbackEvs [Event.logWrite lg] = true := rfl

theorem stepRun_not_rb : (SpawnPhase.stepRun == SpawnPhase.rollbackRun) = false := rfl

theorem verifyRun_not_rb : (SpawnPhase.verifyRun == SpawnPhase.rollbackRun) = false := rfl

theorem execStep_no_rb (ctx : Ctx) (oracle : Nat → ProcResult)
    (cb : Option (Nat → AgentResp)) (step : Step) (inputs : Inputs) (eng : Eng) :
    noRollbackEvs (execStep ctx oracle cb step inputs eng).2.1 = true := by
  unfold execStep runSpawn
  repeat' split
  all_goals simp [noRollbackEvs, isRollbackSpawn, failStep, stepRun_not_rb]
  all_goals (repeat' split)
  all_goals simp [stepRun_not_rb]

theorem retryLoop_no_rb (ctx : Ctx) (oracle : Nat → ProcResult)
    (cb : Option (Nat → AgentResp)) (step : Step) (inputs : Inputs) :
    ∀ (n attemptIdx : Nat) (lastFail : StepResultM) (eng : Eng),
      noRollbackEvs (retryLoop ctx oracle cb step inputs n attemptIdx lastFail eng).2.1
        = true := by
  intro n
  induction n with
  | zero =>
    intro attemptIdx lastFail eng
    simp [retryLoop, noRollbackEvs]
  | succ n ih =>
    intro attemptIdx lastFail eng
    simp only [retryLoop]
    cases hE : execStep ctx oracle cb step inputs eng with
    | mk r1 p1 =>
      cases p1 with
      | mk evs1 eng1 =>
        have h1 : noRollbackEvs evs1 = true := by
          have := execStep_no_rb ctx oracle cb step inputs eng
          rw [hE] at this
          exact this
        by_cases hs : r1.success = true
        · simp only [hs, if_true]
          exact h1
        · have hs2 : r1.success = false := by revert hs; cases r1.success <;> simp
          simp only [hs2, Bool.false_eq_true, if_false]
          cases hR : retryLoop ctx oracle cb step inputs n (attemptIdx + 1) r1 eng1 with
          | mk r2 p2 =>
            cases p2 with
            | mk evs2 eng2 =>
              have h2 : noRollbackEvs evs2 = true := by
                have := ih (attemptIdx + 1) r1 eng1
                rw [hR] at this
                exact this
              simp [noRollbackEvs_append, h1, h2]

theorem stepsLoop_done_no_rb (ctx : Ctx) (oracle : Nat → ProcResult)
    (cb : Option (Nat → AgentResp)) (rb : List Step) :
    ∀ (steps : List Step) (inputs : Inputs) (completed : List String)
      (logs : List LogStep) (eng : Eng) (c : List String) (l : List LogStep),
      (stepsLoop ctx oracle cb rb steps inputs completed logs eng).exit = .done c l →
      noRollbackEvs (stepsLoop ctx oracle cb rb steps inputs completed logs eng).evs
        = true := by
  intro steps
  induction steps with
  | nil =>
    intro inputs completed logs eng c l _
    simp [stepsLoop, noRollbackEvs]
  | cons step rest ih =>
    intro inputs completed logs eng c l hdone
    simp only [stepsLoop] at hdone ⊢
    cases hE : execStep ctx oracle cb step inputs eng with
    | mk r1 p1 =>
      cases p1 with
      | mk evs1 eng1 =>
        rw [hE] at hdone
        have h1 : noRollbackEvs evs1 = true := by
          have := execStep_no_rb ctx oracle cb step inputs eng
          rw [hE] at this
          exact this
        by_cases hs : r1.success = true
        · simp only [hs, if_true] at hdone ⊢
          have h2 := ih inputs (completed ++ [step.id]) (logs ++ [mkLogStep step r1]) eng1
            c l hdone
          simp [noRollbackEvs_append, h1, h2]
        · have hs2 : r1.success = false := by revert hs; cases r1.success <;> simp
          simp only [hs2, Bool.false_eq_true, if_false] at hdone ⊢
          cases hR : retryLoop ctx oracle cb step inputs step.retry 0 r1 eng1 with
          | mk rF p2 =>
            cases p2 with
            | mk evsR eng2 =>
              rw [hR] at hdone
              have hr2 : noRollbackEvs evsR = true := by
                have := retryLoop_no_rb ctx oracle cb step inputs step.retry 0 r1 eng1
                rw [hR] at this
                exact this
              by_cases hf : rF.success = true
              · simp only [hf, if_true] at hdone ⊢
                have h2 := ih inputs (completed ++ [step.id]) (logs ++ [mkLogStep step r1])
                  eng2 c l hdone
                simp [noRollbackEvs_append, h1, hr2, h2]
              · have hf2 : rF.success = false := by revert hf; cases rF.success <;> simp
                simp only [hf2, Bool.false_eq_true, if_false] at hdone
                exact StepsExit.noConfusion hdone

theorem verifyCheck_no_rb (world : World) (oracle : Nat → ProcResult) (check : Check)
    (inputs : Inputs) (eng : Eng) :
    noRollbackEvs (verifyCheck world oracle check inputs eng).2.1 = true := by
  unfold verifyCheck
  repeat' split
  all_goals simp [noRollbackEvs, isRollbackSpawn, verifyRun_not_rb]

theorem verifyLoop_no_rb (world : World) (oracle : Nat → ProcResult) :
    ∀ (checks : List Check) (inputs : Inputs) (eng : Eng),
      noRollbackEvs (verifyLoop world oracle checks inputs eng).evs = true := by
  intro checks
  induction checks with
  | nil =>
    intro inputs eng
    simp [verifyLoop, noRollbackEvs]
  | cons check rest ih =>
    intro inputs eng
    simp only [verifyLoop]
    cases hC : verifyCheck world oracle check inputs eng with
    | mk res p1 =>
      cases p1 with
      | mk evs1 eng1 =>
        have h1 : noRollbackEvs evs1 = true := by
          have := verifyCheck_no_rb world oracle check inputs eng
          rw [hC] at this
          exact this
        cases res with
        | error m => exact h1
        | ok pm =>
          cases pm with
          | mk passed msg =>
            by_cases hp : passed = true
            · simp only [hp, if_true]
              simp [noRollbackEvs_append, h1, ih inputs eng1]
            · have hp2 : passed = false := by revert hp; cases passed <;> simp
              simp only [hp2, Bool.false_eq_true, if_false]
              exact h1

theorem contextPreload_no_rb (libs : List String) (cb : Option (Nat → AgentResp))
    (dry : Bool) : noRollbackEvs (contextPreload libs cb dry).1 = true := by
  unfold contextPreload
  split <;> simp [noRollbackEvs, isRollbackSpawn]

/-- C7: rollback never runs on verification failure.  For every skill
execution, (a) if the persisted log marks a failed verification probe,
the skill returned failure with `steps_failed = []` (all steps had
succeeded), and (b) whenever `steps_failed` is empty — which covers
every verification failure — the event trace contains no rollback
subprocess: rollback spawns occur only on unrecoverable step failure. -/
theorem c7_verification_no_rollback (ctx : Ctx) (world : World)
    (oracle : Nat → ProcResult) (cb : Option (Nat → AgentResp)) (skill : SkillSpec)
    (inputs0 : Inputs) (dry : Bool) :
    (∀ lg, (executeSkillSpec ctx world oracle cb skill inputs0 dry).log = some lg →
       lg.verification_failed.isSome = true →
       (executeSkillSpec ctx world oracle cb skill inputs0 dry).result.success = false
       ∧ (executeSkillSpec ctx world oracle cb skill inputs0 dry).result.steps_failed = [])
    ∧ ((executeSkillSpec ctx world oracle cb skill inputs0 dry).result.steps_failed = [] →
       noRollbackEvs (executeSkillSpec ctx world oracle cb skill inputs0 dry).events
         = true) := by
  simp only [executeSkillSpec]
  cases hv : validateInputs skill.inputs inputs0 with
  | some err =>
    constructor
    · intro lg hlg
      exact Option.noConfusion hlg
    · intro _
      rfl
  | none =>
    cases hp : prereqLoop world skill.pre_requisites with
    | failedP msg =>
      constructor
      · intro lg hlg hvf
        simp only [finalizeExec, Option.some.injEq] at hlg
        rw [← hlg] at hvf
        simp at hvf
      · intro _
        simp [finalizeExec, noRollbackEvs, isRollbackSpawn]
    | ok =>
      by_cases hd : dry = true
      · simp only [hd, if_true]
        constructor
        · intro lg hlg
          exact Option.noConfusion hlg
        · intro _
          exact contextPreload_no_rb _ _ _
      · have hd2 : dry = false := by revert hd; cases dry <;> simp
        subst hd2
        simp only [Bool.false_eq_true, if_false]
        cases hsx : (stepsLoop ctx oracle cb skill.rollback skill.steps
            (applyDefaults skill.inputs inputs0) [] []
            (contextPreload skill.context7_required cb false).2).exit with
        | failedAt a fid ferr lgs =>
          constructor
          · intro lg hlg hvf
            simp only [finalizeExec, Option.some.injEq] at hlg
            rw [← hlg] at hvf
            simp at hvf
          · intro hsf
            simp only [finalizeExec] at hsf
            exact absurd hsf (by simp)
        | done a lgs =>
          have hsteps := stepsLoop_done_no_rb ctx oracle cb skill.rollback skill.steps
            (applyDefaults skill.inputs inputs0) [] []
            (contextPreload skill.context7_required cb false).2 a lgs hsx
          have hverify := verifyLoop_no_rb world oracle skill.verification
            (applyDefaults skill.inputs inputs0)
            ((stepsLoop ctx oracle cb skill.rollback skill.steps
              (applyDefaults skill.inputs inputs0) [] []
              (contextPreload skill.context7_required cb false).2).eng)
          have hc7 := contextPreload_no_rb skill.context7_required cb false
          cases hvx : (verifyLoop world oracle skill.verification
              (applyDefaults skill.inputs inputs0)
              ((stepsLoop ctx oracle cb skill.rollback skill.steps
                (applyDefaults skill.inputs inputs0) [] []
                (contextPreload skill.context7_required cb false).2).eng)).exit with
          | raisedV m =>
            constructor
            · intro lg hlg hvf
              simp only [finalizeExec, Option.some.injEq] at hlg
              rw [← hlg] at hvf
              simp at hvf
            · intro _
              simp [finalizeExec, noRollbackEvs_append, hsteps, hverify, hc7, noRb_logWrite]
          | failedV m ck =>
            constructor
            · intro lg hlg hvf
              exact ⟨rfl, rfl⟩
            · intro _
              simp [finalizeExec, noRollbackEvs_append, hsteps, hverify, hc7, noRb_logWrite]
          | passedV =>
            constructor
            · intro lg hlg hvf
              simp only [finalizeExec, Option.some.injEq] at hlg
              rw [← hlg] at hvf
              simp at hvf
            · intro _
              simp [finalizeExec, noRollbackEvs_append, hsteps, hverify, hc7, noRb_logWrite]

/-- C7 (witness): concrete run of `vfSkill` — the step succeeds, the
verification probe exits 1, the skill fails with no step failures, and
its non-empty rollback list spawns nothing. -/
theorem c7_verification_no_rollback_witness :
    noRollbackEvs (executeSkillSpec ctxW worldT oracleVF none vfSkill [] false).events
      = true
    ∧ (executeSkillSpec ctxW worldT oracleVF none vfSkill [] false).result.success
      = false :=
  ⟨(c7_verification_no_rollback ctxW worldT oracleVF none vfSkill [] false).2 rfl, rfl⟩

/-! ## C8 — log persistence -/

/-- C8 (counterexample): invoking `execute_skill` with a name absent
from the registry returns failure with NO persisted log — `log_file` is
`none` and no log-write event occurs — contradicting the claim that
every invocation (SkillNotFound included) persists a JSON log and
returns a result referencing it. -/
theorem c8_not_found_no_log_counterexample :
    (executeSkill ctrlEmpty ctxW worldT ok0 none "baz" [] false).result.success = false
    ∧ (executeSkill ctrlEmpty ctxW worldT ok0 none "baz" [] false).result.log_file = none
    ∧ (executeSkill ctrlEmpty ctxW worldT ok0 none "baz" [] false).log = none
    ∧ (executeSkill ctrlEmpty ctxW worldT ok0 none "baz" [] false).events = [] :=
  ⟨rfl, rfl, rfl, rfl⟩

/-- C8 (amended): a log is persisted exactly from the prereq stage
onwards.  (1) SkillNotFound returns with no log and no events; (2) so
does an input-validation failure; (3) the dry-run short-circuit (after
prereqs pass) returns success with `steps_completed = ["(dry run)"]`
and no log; (4) every run that is found, valid and not dry — prereq
failure, step failure, verification failure or success — persists
exactly one log and the result references it. -/
theorem c8_log_persistence (ctrl : SkillCtrl) (ctx : Ctx) (world : World)
    (oracle : Nat → ProcResult) (cb : Option (Nat → AgentResp)) (name : String)
    (inputs0 : Inputs) (dry : Bool) :
    (lookupA ctrl.registry name = none →
       (executeSkill ctrl ctx world oracle cb name inputs0 dry).result.log_file = none
       ∧ (executeSkill ctrl ctx world oracle cb name inputs0 dry).log = none
       ∧ (executeSkill ctrl ctx world oracle cb name inputs0 dry).events = [])
    ∧ (∀ skill, lookupA ctrl.registry name = some skill →
        (validateInputs skill.inputs inputs0).isSome = true →
        (executeSkill ctrl ctx world oracle cb name inputs0 dry).result.log_file = none
        ∧ (executeSkill ctrl ctx world oracle cb name inputs0 dry).log = none
        ∧ (executeSkill ctrl ctx world oracle cb name inputs0 dry).events = [])
    ∧ (∀ skill, lookupA ctrl.registry name = some skill →
        validateInputs skill.inputs inputs0 = none →
        prereqLoop world skill.pre_requisites = .ok → dry = true →
        (executeSkill ctrl ctx world oracle cb name inputs0 dry).result.success = true
        ∧ (executeSkill ctrl ctx world oracle cb name inputs0 dry).result.steps_completed
            = ["(dry run)"]
        ∧ (executeSkill ctrl ctx world oracle cb name inputs0 dry).result.log_file = none
        ∧ (executeSkill ctrl ctx world oracle cb name inputs0 dry).log = none)
    ∧ (∀ skill, lookupA ctrl.registry name = some skill →
        validateInputs skill.inputs inputs0 = none → dry = false →
        ∃ lg, (executeSkill ctrl ctx world oracle cb name inputs0 dry).log = some lg
          ∧ (executeSkill ctrl ctx world oracle cb name inputs0 dry).result.log_file
              = some (logPath skill)
          ∧ Event.logWrite lg ∈ (executeSkill ctrl ctx world oracle cb name inputs0 dry).events) := by
  refine ⟨?_, ?_, ?_, ?_⟩
  · intro h
    simp only [executeSkill, h]
    refine ⟨?_, ?_, ?_⟩ <;> trivial
  · intro skill hf hv
    simp only [executeSkill, hf, executeSkillSpec]
    cases hv2 : validateInputs skill.inputs inputs0 with
    | none => rw [hv2] at hv; simp at hv
    | some err => refine ⟨?_, ?_, ?_⟩ <;> trivial
  · intro skill hf hv hpre hd
    subst hd
    simp only [executeSkill, hf, executeSkillSpec, hv, hpre, if_true]
    refine ⟨?_, ?_, ?_, ?_⟩ <;> trivial
  · intro skill hf hv hd
    subst hd
    simp only [executeSkill, hf, executeSkillSpec, hv]
    cases hp : prereqLoop world skill.pre_requisites with
    | failedP msg =>
      refine ⟨_, rfl, rfl, ?_⟩
      simp [finalizeExec]
    | ok =>
      simp only [Bool.false_eq_true, if_false]
      cases hsx : (stepsLoop ctx oracle cb skill.rollback skill.steps
          (applyDefaults skill.inputs inputs0) [] []
          (contextPreload skill.context7_required cb false).2).exit with
      | failedAt a fid ferr lgs =>
        refine ⟨_, rfl, rfl, ?_⟩
        simp [finalizeExec]
      | done a lgs =>
        cases hvx : (verifyLoop world oracle skill.verification
            (applyDefaults skill.inputs inputs0)
            ((stepsLoop ctx oracle cb skill.rollback skill.steps
              (applyDefaults skill.inputs inputs0) [] []
              (contextPreload skill.context7_required cb false).2).eng)).exit with
        | raisedV m =>
          refine ⟨_, rfl, rfl, ?_⟩
          simp [finalizeExec]
        | failedV m ck =>
          refine ⟨_, rfl, rfl, ?_⟩
          simp [finalizeExec]
        | passedV =>
          refine ⟨_, rfl, rfl, ?_⟩
          simp [finalizeExec]

/-- C8 (witness): the amended guarantee at concrete runs — a
SkillNotFound return carries no log file, and a dry run returns success
with the synthetic steps and no log. -/
theorem c8_log_persistence_witness :
    (executeSkill ctrlDemo ctxW worldT ok0 none "nope" [] false).result.log_file = none
    ∧ ((executeSkill ctrlDemo ctxW worldT ok0 none "demo" [] true).result.success = true
       ∧ (executeSkill ctrlDemo ctxW worldT ok0 none "demo" [] true).result.steps_completed
           = ["(dry run)"]
       ∧ (executeSkill ctrlDemo ctxW worldT ok0 none "demo" [] true).result.log_file = none
       ∧ (executeSkill ctrlDemo ctxW worldT ok0 none "demo" [] true).log = none) :=
  ⟨((c8_log_persistence ctrlDemo ctxW worldT ok0 none "nope" [] false).1 rfl).1,
   (c8_log_persistence ctrlDemo ctxW worldT ok0 none "demo" [] true).2.2.1
     demoSkill rfl rfl rfl rfl⟩

/-! ## C9 — secret redaction -/

theorem sanitize_nil : sanitizeEntries [] = [] := by
  rw [sanitizeEntries.eq_def]

theorem sanitize_cons_sens (k : String) (v : Value) (rest : List (String × Value))
    (h : isSensitiveKey k = true) :
    sanitizeEntries ((k, v) :: rest)
      = (k, Value.str "[REDACTED]") :: sanitizeEntries rest := by
  rw [sanitizeEntries.eq_def]
  simp [h]

theorem sanitize_cons_dict (k : String) (es rest : List (String × Value))
    (h : isSensitiveKey k = false) :
    sanitizeEntries ((k, Value.dict es) :: rest)
      = (k, Value.dict (sanitizeEntries es)) :: sanitizeEntries rest := by
  rw [sanitizeEntries.eq_def]
  simp [h]

theorem sanitize_cons_other (k : String) (v : Value) (rest : List (String × Value))
    (h : isSensitiveKey k = false) (hnd : ∀ es, v ≠ Value.dict es) :
    sanitizeEntries ((k, v) :: rest) = (k, v) :: sanitizeEntries rest := by
  rw [sanitizeEntries.eq_def]
  cases v with
  | dict es => exact absurd rfl (hnd es)
  | str s => simp [h]
  | num n => simp [h]
  | bool b => simp [h]
  | list vs => simp [h]

theorem clean_nil : cleanEntries [] = true := by
  rw [cleanEntries.eq_def]

theorem clean_cons_sens (k : String) (v : Value) (rest : List (String × Value))
    (h : isSensitiveKey k = true) :
    cleanEntries ((k, v) :: rest)
      = (valueBeq v (Value.str "[REDACTED]") && cleanEntries rest) := by
  rw [cleanEntries.eq_def]
  simp [h]

theorem clean_cons_dict (k : String) (es rest : List (String × Value))
    (h : isSensitiveKey k = false) :
    cleanEntries ((k, Value.dict es) :: rest)
      = (cleanEntries es && cleanEntries rest) := by
  rw [cleanEntries.eq_def]
  simp [h]

theorem clean_cons_other (k : String) (v : Value) (rest : List (String × Value))
    (h : isSensitiveKey k = false) (hnd : ∀ es, v ≠ Value.dict es) :
    cleanEntries ((k, v) :: rest) = cleanEntries rest := by
  rw [cleanEntries.eq_def]
  cases v with
  | dict es => exact absurd rfl (hnd es)
  | str s => simp [h]
  | num n => simp [h]
  | bool b => simp [h]
  | list vs => simp [h]

theorem valueBeq_str (a b : String) : valueBeq (Value.str a) (Value.str b) = (a == b) := by
  rw [valueBeq.eq_def]

theorem cleanEntries_sanitize : ∀ m, cleanEntries (sanitizeEntries m) = true := by
  intro m
  induction m using sanitizeEntries.induct with
  | case1 => rw [sanitize_nil, clean_nil]
  | case2 k v rest hs ih =>
    rw [sanitize_cons_sens k v rest hs, clean_cons_sens k _ _ hs, valueBeq_str, ih]
    simp
  | case3 k rest hs es ihes ihrest =>
    have hs2 : isSensitiveKey k = false := by
      revert hs; cases isSensitiveKey k <;> simp
    rw [sanitize_cons_dict k es rest hs2, clean_cons_dict k _ _ hs2, ihes, ihrest]
    simp
  | case4 k v rest hs hnd ih =>
    have hs2 : isSensitiveKey k = false := by
      revert hs; cases isSensitiveKey k <;> simp
    have hnd2 : ∀ es, v ≠ Value.dict es := fun es he => hnd es he
    rw [sanitize_cons_other k v rest hs2 hnd2, clean_cons_other k v _ hs2 hnd2, ih]

theorem sanitize_keys : ∀ m, (sanitizeEntries m).map Prod.fst = m.map Prod.fst := by
  intro m
  induction m using sanitizeEntries.induct with
  | case1 => rw [sanitize_nil]
  | case2 k v rest hs ih =>
    rw [sanitize_cons_sens k v rest hs]
    simp [ih]
  | case3 k rest hs es ihes ihrest =>
    have hs2 : isSensitiveKey k = false := by
      revert hs; cases isSensitiveKey k <;> simp
    rw [sanitize_cons_dict k es rest hs2]
    simp [ihrest]
  | case4 k v rest hs hnd ih =>
    have hs2 : isSensitiveKey k = false := by
      revert hs; cases isSensitiveKey k <;> simp
    have hnd2 : ∀ es, v ≠ Value.dict es := fun es he => hnd es he
    rw [sanitize_cons_other k v rest hs2 hnd2]
    simp [ih]

theorem sanitize_mem : ∀ (m : List (String × Value)) (k : String) (v : Value),
    (k, v) ∈ m → isSensitiveKey k = false → (∀ es, v ≠ Value.dict es) →
    (k, v) ∈ sanitizeEntries m := by
  intro m
  induction m using sanitizeEntries.induct with
  | case1 =>
    intro k v hmem
    cases hmem
  | case2 k2 v2 rest hs ih =>
    intro k v hmem hns hnd
    rw [sanitize_cons_sens k2 v2 rest hs]
    rcases List.mem_cons.mp hmem with heq | ht
    · injection heq with hk hv
      subst hk
      rw [hs] at hns
      cases hns
    · exact List.mem_cons_of_mem _ (ih k v ht hns hnd)
  | case3 k2 rest hs es ihes ihrest =>
    intro k v hmem hns hnd
    have hs2 : isSensitiveKey k2 = false := by
      revert hs; cases isSensitiveKey k2 <;> simp
    rw [sanitize_cons_dict k2 es rest hs2]
    rcases List.mem_cons.mp hmem with heq | ht
    · injection heq with hk hv
      exact absurd hv (hnd es)
    · exact List.mem_cons_of_mem _ (ihrest k v ht hns hnd)
  | case4 k2 v2 rest hs hnd2 ih =>
    intro k v hmem hns hnd
    have hs2 : isSensitiveKey k2 = false := by
      revert hs; cases isSensitiveKey k2 <;> simp
    have hnd3 : ∀ es, v2 ≠ Value.dict es := fun es he => hnd2 es he
    rw [sanitize_cons_other k2 v2 rest hs2 hnd3]
    rcases List.mem_cons.mp hmem with heq | ht
    · rw [heq]
      exact List.mem_cons_self _ _
    · exact List.mem_cons_of_mem _ (ih k v ht hns hnd)

/-- C9: redaction before persistence.  (1) In the sanitized mapping,
every key containing a sensitive token (recursively through nested
dicts) holds the literal `[REDACTED]`; (2) sanitization preserves the
key structure; (3) non-dict values under non-sensitive keys are left
intact; and (4) every persisted execution log carries exactly the
sanitized inputs (after defaults), hence satisfies (1) — no log holds
a literal value under a sensitive-named key. -/
theorem c9_redaction :
    (∀ m, cleanEntries (sanitizeEntries m) = true)
    ∧ (∀ m, (sanitizeEntries m).map Prod.fst = m.map Prod.fst)
    ∧ (∀ m k v, (k, v) ∈ m → isSensitiveKey k = false →
        (∀ es, v ≠ Value.dict es) → (k, v) ∈ sanitizeEntries m)
    ∧ (∀ (ctx : Ctx) (world : World) (oracle : Nat → ProcResult)
        (cb : Option (Nat → AgentResp)) (skill : SkillSpec) (inputs0 : Inputs)
        (dry : Bool) (lg : ExecLog),
        (executeSkillSpec ctx world oracle cb skill inputs0 dry).log = some lg →
        lg.inputs = sanitizeEntries (applyDefaults skill.inputs inputs0)
        ∧ cleanEntries lg.inputs = true) := by
  refine ⟨cleanEntries_sanitize, sanitize_keys,
    fun m k v hm hs hd => sanitize_mem m k v hm hs hd, ?_⟩
  intro ctx world oracle cb skill inputs0 dry lg hlg
  simp only [executeSkillSpec] at hlg
  cases hv : validateInputs skill.inputs inputs0 with
  | some err =>
    rw [hv] at hlg
    exact Option.noConfusion hlg
  | none =>
    rw [hv] at hlg
    cases hp : prereqLoop world skill.pre_requisites with
    | failedP msg =>
      rw [hp] at hlg
      simp only [finalizeExec, Option.some.injEq] at hlg
      rw [← hlg]
      exact ⟨rfl, cleanEntries_sanitize _⟩
    | ok =>
      rw [hp] at hlg
      by_cases hdr : dry = true
      · rw [hdr] at hlg
        simp only [if_true] at hlg
        exact Option.noConfusion hlg
      · have hd2 : dry = false := by revert hdr; cases dry <;> simp
        rw [hd2] at hlg
        simp only [Bool.false_eq_true, if_false] at hlg
        cases hsx : (stepsLoop ctx oracle cb skill.rollback skill.steps
            (applyDefaults skill.inputs inputs0) [] []
            (contextPreload skill.context7_required cb false).2).exit with
        | failedAt a fid ferr lgs =>
          rw [hsx] at hlg
          simp only [finalizeExec, Option.some.injEq] at hlg
          rw [← hlg]
          exact ⟨rfl, cleanEntries_sanitize _⟩
        | done a lgs =>
          rw [hsx] at hlg
          cases hvx : (verifyLoop world oracle skill.verification
              (applyDefaults skill.inputs inputs0)
              ((stepsLoop ctx oracle cb skill.rollback skill.steps
                (applyDefaults skill.inputs inputs0) [] []
                (contextPreload skill.context7_required cb false).2).eng)).exit with
          | raisedV m =>
            rw [hvx] at hlg
            simp only [finalizeExec, Option.some.injEq] at hlg
            rw [← hlg]
            exact ⟨rfl, cleanEntries_sanitize _⟩
          | failedV m ck =>
            rw [hvx] at hlg
            simp only [finalizeExec, Option.some.injEq] at hlg
            rw [← hlg]
            exact ⟨rfl, cleanEntries_sanitize _⟩
          | passedV =>
            rw [hvx] at hlg
            simp only [finalizeExec, Option.some.injEq] at hlg
            rw [← hlg]
            exact ⟨rfl, cleanEntries_sanitize _⟩

/-- C9 (witness): the intact-value guarantee applied at a concrete
non-sensitive entry. -/
theorem c9_redaction_witness :
    ("proj", Value.str "demo") ∈ sanitizeEntries [("proj", Value.str "demo")] :=
  c9_redaction.2.2.1 [("proj", Value.str "demo")] "proj" (Value.str "demo")
    (List.mem_singleton.mpr rfl) rfl (fun _ h => Value.noConfusion h)

/-! ## C10 — defaults are written into the caller's dict -/

/-- C10: both controllers write defaults into the caller's inputs dict
in place.  `finalInputs` models the contents of the very dictionary the
caller passed, at return (the source mutates it with
`inputs[input_name] = default`, not on a copy): after a skill run whose
validation succeeded, and after any workflow run whose lookup
succeeded, the caller's mapping equals `applyDefaults`, which may
contain keys the original mapping did not (see the witness). -/
theorem c10_inputs_mutated :
    (∀ (ctx : Ctx) (world : World) (oracle : Nat → ProcResult)
       (cb : Option (Nat → AgentResp)) (skill : SkillSpec) (inputs0 : Inputs)
       (dry : Bool), validateInputs skill.inputs inputs0 = none →
       (executeSkillSpec ctx world oracle cb skill inputs0 dry).finalInputs
         = applyDefaults skill.inputs inputs0)
    ∧ (∀ (ctrl : WfCtrl) (env : WfEnv) (name : String) (inputs0 : Inputs)
       (dry resume : Bool) (fs0 : Option WfStateM) (wf : WorkflowSpec),
       lookupA ctrl.registry name = some wf →
       (executeWorkflow ctrl env name inputs0 dry resume fs0).finalInputs
         = applyDefaults wf.inputs inputs0) := by
  constructor
  · intro ctx world oracle cb skill inputs0 dry hv
    simp only [executeSkillSpec, hv]
    cases hp : prereqLoop world skill.pre_requisites with
    | failedP msg => rfl
    | ok =>
      by_cases hd : dry = true
      · simp only [hd, if_true]
      · have hd2 : dry = false := by revert hd; cases dry <;> simp
        subst hd2
        simp only [Bool.false_eq_true, if_false]
        cases (stepsLoop ctx oracle cb skill.rollback skill.steps
            (applyDefaults skill.inputs inputs0) [] []
            (contextPreload skill.context7_required cb false).2).exit with
        | failedAt a fid ferr lgs => rfl
        | done a lgs =>
          cases (verifyLoop world oracle skill.verification
              (applyDefaults skill.inputs inputs0)
              ((stepsLoop ctx oracle cb skill.rollback skill.steps
                (applyDefaults skill.inputs inputs0) [] []
                (contextPreload skill.context7_required cb false).2).eng)).exit with
          | raisedV m => rfl
          | failedV m ck => rfl
          | passedV => rfl
  · intro ctrl env name inputs0 dry resume fs0 wf hfound
    simp only [executeWorkflow, hfound]
    by_cases hd : dry = true
    · simp only [hd, if_true]
    · have hd2 : dry = false := by revert hd; cases dry <;> simp
      subst hd2
      simp only [Bool.false_eq_true, if_false]
      cases wfLoop env (wfStart wf inputs0 resume fs0).2.2
          (wf.phases.drop (wfStart wf inputs0 resume fs0).1)
          (wfCarry0 wf name inputs0 resume fs0) with
      | finished c => rfl
      | stopFailed c pn => rfl
      | pausedExit c pn => rfl
      | condRaised c msg => rfl

/-- C10 (witness): at a skill (and a workflow) declaring an optional
input `mode` with default `"fast"`, a call with the empty dict leaves
the caller's dict holding `mode`, a key it did not contain before. -/
theorem c10_inputs_mutated_witness :
    (executeSkillSpec ctxW worldT ok0 none optSkill [] false).finalInputs
      = applyDefaults optSkill.inputs []
    ∧ lookupA (applyDefaults optSkill.inputs []) "mode" = some (Value.str "fast")
    ∧ lookupA ([] : Inputs) "mode" = none
    ∧ (executeWorkflow ctrlWOpt envOk "wopt" [] false false none).finalInputs
      = applyDefaults wfOpt.inputs [] :=
  ⟨c10_inputs_mutated.1 ctxW worldT ok0 none optSkill [] false rfl, rfl, rfl,
   c10_inputs_mutated.2 ctrlWOpt envOk "wopt" [] false false none wfOpt rfl⟩

end AOrch
